import Mathlib

/-!
# squeezelite-esp32: the wifi-manager HTTP server

A shallow embedding of `components/wifi-manager/http_server.c`.

Conventions of the embedding.

* A C string (`char *`) is the `List Char` of the characters it points to, up to and
  not including the terminating NUL.  A pointer into a buffer is the suffix of the
  buffer that starts there; `NULL` is `none`.
* The collaborators of the server (wifi manager, NVS store, lwIP) are not part of the
  file.  What they return is read from an `Env`; what the server asks of them is
  recorded, in program order, in a list of `Event`s.
* The two `do { ... } while(1)` loops have no bound in the source; they are embedded
  with a fuel argument and return `none` when the fuel runs out.
-/

set_option autoImplicit false

namespace HttpServer

/-! ## C library functions used by the server -/

/-- The function `strstr(haystack, needle)`: the suffix of `haystack` that starts at the
first occurrence of `needle`, or `none` (NULL) when there is none. -/
def strstr : List Char → List Char → Option (List Char)
  | [], needle => if needle = [] then some [] else none
  | c :: cs, needle =>
    if needle.isPrefixOf (c :: cs) then some (c :: cs) else strstr cs needle

/-- The function `strtok_r(s, delim, &save)` on its first call: skip the leading
delimiters; if nothing is left the token is NULL; otherwise the token runs up to the
next delimiter, which is overwritten by NUL, and `save` points right after it (or at
the end of the string when no delimiter follows).  The result is `(token, save)`. -/
def strtok_r (s delim : List Char) : Option (List Char × List Char) :=
  let s1 := s.dropWhile (fun c => delim.contains c)
  if s1 = [] then none
  else some (s1.takeWhile (fun c => !delim.contains c),
             (s1.dropWhile (fun c => !delim.contains c)).drop 1)

/-- The function `snprintf(buf, n, ...)`, given the fully formatted text: at most
`n - 1` characters are stored. -/
def snprintf (n : Nat) (formatted : List Char) : List Char :=
  formatted.take (n - 1)

/-- The conversion `%u` of a non-negative integer. -/
def fmt_u (i : Nat) : List Char := Nat.toDigits 10 i

/-- The predicate `isspace` of the C locale. -/
def isspace (c : Char) : Bool :=
  c == ' ' || c == '\t' || c == '\n' || c == '\x0b' || c == '\x0c' || c == '\r'

/-- The value of a run of decimal digits at the head of a string, given the value read
so far. -/
def atoi_digits : Int → List Char → Int
  | acc, [] => acc
  | acc, c :: cs =>
    if c.isDigit then atoi_digits (acc * 10 + ((c.toNat - '0'.toNat : Nat) : Int)) cs
    else acc

/-- The text `atoi` reads: leading white space, an optional sign, decimal digits; the
result is the number they spell. -/
def atoi_value (s : List Char) : Int :=
  match s.dropWhile isspace with
  | '-' :: cs => - atoi_digits 0 cs
  | '+' :: cs => atoi_digits 0 cs
  | cs => atoi_digits 0 cs

/-- The function `atoi` of the C library of the target, `(int) strtol(s, NULL, 10)` with a
32-bit `long`: a number outside the range of `int` is brought to the nearest bound. -/
def atoi (s : List Char) : Int :=
  max (-(2 ^ 31)) (min (atoi_value s) (2 ^ 31 - 1))

/-! ## `http_server_get_header` (lines 113-129) -/

/-- The header extractor.  The result is `(ret, *len)`. -/
def http_server_get_header (request header_name : List Char) : Option (List Char) × Nat :=
  match strstr request header_name with
  | some ptr =>
    let ret := ptr.drop header_name.length
    (some ret, (ret.takeWhile (fun c => c != '\n' && c != '\r')).length)
  | none => (none, 0)

/-! ## `strreplace` (lines 384-401) -/

/-- The in-place substitution `strreplace(src, str, rep)`, returning the final content
of `src`.  When `str` occurs at `p`, the buffer becomes the text before `p`, then `rep`,
then the text after the occurrence, and the function calls itself on `p + strlen(rep)`,
which is that text after the occurrence.  The recursion has no bound in the source
(an empty `str` is found again at every call), hence the fuel. -/
def strreplace : Nat → List Char → List Char → List Char → Option (List Char)
  | 0, _, _, _ => none
  | fuel + 1, src, str, rep =>
    match strstr src str with
    | none => some src
    | some p =>
      match strreplace fuel (p.drop str.length) str rep with
      | none => none
      | some tail => some (src.take (src.length - p.length) ++ rep ++ tail)

/-! ## Constants of the file (lines 41-44 and 66-75) -/

def json_start_fmt (flag : Nat) : List Char :=
  "\x7b \"autoexec\": ".toList ++ fmt_u flag ++ ", \"list\": [".toList

def json_end : List Char := "]\x7d".toList

/-- The text of `template`, before formatting: its `strlen` sizes the line buffer. -/
def template : List Char := "\x7b \"%s\": \"%s\" \x7d".toList

def template_fmt (name value : List Char) : List Char :=
  "\x7b \"".toList ++ name ++ "\": \"".toList ++ value ++ "\" \x7d".toList

def array_separator : List Char := ",".toList

def http_html_hdr : List Char := "HTTP/1.1 200 OK\nContent-type: text/html\n\n".toList

def http_css_hdr : List Char :=
  "HTTP/1.1 200 OK\nContent-type: text/css\nCache-Control: public, max-age=31536000\n\n".toList

def http_js_hdr : List Char := "HTTP/1.1 200 OK\nContent-type: text/javascript\n\n".toList

def http_jquery_gz_hdr : List Char :=
  "HTTP/1.1 200 OK\nContent-type: text/javascript\nAccept-Ranges: bytes\nContent-Length: 29995\nContent-Encoding: gzip\n\n".toList

def http_400_hdr : List Char := "HTTP/1.1 400 Bad Request\nContent-Length: 0\n\n".toList

def http_404_hdr : List Char := "HTTP/1.1 404 Not Found\nContent-Length: 0\n\n".toList

def http_503_hdr : List Char :=
  "HTTP/1.1 503 Service Unavailable\nContent-Length: 0\n\n".toList

def http_ok_json_no_cache_hdr : List Char :=
  "HTTP/1.1 200 OK\nContent-type: application/json\nCache-Control: no-store, no-cache, must-revalidate, max-age=0\nPragma: no-cache\n\n".toList

def http_redirect_hdr_start : List Char := "HTTP/1.1 302 Found\nLocation: http://".toList

def http_redirect_hdr_end : List Char := "/\n\n".toList

def new_line : List Char := "\n".toList

/-! ## What the file takes from elsewhere -/

/-- The macros of `wifi_manager.h` and the embedded binary assets, none of which is
defined in `http_server.c`. -/
structure Config where
  DEFAULT_AP_IP : List Char
  MAX_SSID_SIZE : Nat
  MAX_PASSWORD_SIZE : Nat
  MAX_COMMAND_LINE_SIZE : Nat
  index_html : List Char
  jquery_gz : List Char
  code_js : List Char
  style_css : List Char

/-- What the collaborators answer during one call of `http_server_netconn_serve`. -/
structure Env where
  /-- The result of `wifi_manager_get_sta_ip_string()`. -/
  sta_ip_string : List Char
  /-- Whether `wifi_manager_lock_json_buffer(10)` obtains the mutex. -/
  lock_json_buffer : Bool
  /-- The result of `wifi_manager_get_ap_list_json()`. -/
  ap_list_json : List Char
  /-- The result of `wifi_manager_get_ip_info_json()`, possibly NULL. -/
  ip_info_json : Option (List Char)
  /-- The result of `wifi_manager_get_flag()`. -/
  flag : Nat
  /-- The result of `wifi_manager_alloc_get_config(name, &l)`, NULL for a missing key. -/
  alloc_get_config : List Char → Option (List Char)
  /-- Whether `malloc(buflen)` succeeds. -/
  malloc_ok : Bool

/-- What the server does to the outside, in program order. -/
inductive Event where
  | lock_sta_ip_string
  | unlock_sta_ip_string
  /-- A call of `wifi_manager_lock_json_buffer`, with its result. -/
  | lock_json_buffer (ok : Bool)
  | unlock_json_buffer
  /-- A call of `netconn_write(conn, data, len, NETCONN_NOCOPY)`: the `len` bytes. -/
  | netconn_write (data : List Char)
  | scan_async
  | disconnect_async
  /-- The `memset` and the two `memcpy` into `wifi_manager_get_wifi_sta_config()`. -/
  | set_wifi_sta_config (ssid password : List Char)
  | connect_async
  | guided_factory
  | save_autoexec_flag (flag : Nat)
  /-- A call of `wifi_manager_save_autoexec_config(value, key, len)`. -/
  | save_autoexec_config (value key : List Char) (len : Nat)
  deriving DecidableEq

/-- The bytes written to the connection, one entry per `netconn_write`. -/
def writes : List Event → List (List Char)
  | [] => []
  | Event.netconn_write d :: t => d :: writes t
  | _ :: t => writes t

/-! ## `http_server_netconn_serve` (lines 132-382) -/

/-- The test `strstr(p, needle)` used as a truth value, `p` being a pointer that the
caller has already checked (a NULL `p` is never searched). -/
def found (p : Option (List Char)) (needle : List Char) : Bool :=
  match p with
  | some h => (strstr h needle).isSome
  | none => false

/-- Lines 153-160: whether the request is answered by a redirect.  `save_ptr` is the
text after the request line. -/
def is_redirect (cfg : Config) (env : Env) (save_ptr : List Char) : Bool :=
  let r := http_server_get_header save_ptr "Host: ".toList
  let host := r.1
  let lenH := r.2
  let access_from_sta_ip := if lenH > 0 then found host env.sta_ip_string else false
  decide (lenH > 0) && !found host cfg.DEFAULT_AP_IP && !access_from_sta_ip

/-- The branches of the `if / else if` chain of lines 169-371. -/
inductive Route where
  | home | jquery_js | code_js | ap_json | style_css | status_json | get_config_json
  | factory_json | post_config_json | delete_connect_json | post_connect_json
  | bad_request
  deriving DecidableEq

/-- The text each branch of the chain searches the request line for. -/
def Route.pattern : Route → List Char
  | .home => "GET / ".toList
  | .jquery_js => "GET /jquery.js ".toList
  | .code_js => "GET /code.js ".toList
  | .ap_json => "GET /ap.json ".toList
  | .style_css => "GET /style.css ".toList
  | .status_json => "GET /status.json ".toList
  | .get_config_json => "GET /config.json ".toList
  | .factory_json => "POST /factory.json ".toList
  | .post_config_json => "POST /config.json ".toList
  | .delete_connect_json => "DELETE /connect.json ".toList
  | .post_connect_json => "POST /connect.json ".toList
  | .bad_request => []

/-- The eleven branches with a pattern, in the order of the chain. -/
def Route.table : List Route :=
  [.home, .jquery_js, .code_js, .ap_json, .style_css, .status_json, .get_config_json,
   .factory_json, .post_config_json, .delete_connect_json, .post_connect_json]

/-- The chain of tests `strstr(line, "...")` of lines 169-368: the first branch whose
text is found in the request line, the final `else` when none is. -/
def route (line : List Char) : Route :=
  if (strstr line "GET / ".toList).isSome then .home
  else if (strstr line "GET /jquery.js ".toList).isSome then .jquery_js
  else if (strstr line "GET /code.js ".toList).isSome then .code_js
  else if (strstr line "GET /ap.json ".toList).isSome then .ap_json
  else if (strstr line "GET /style.css ".toList).isSome then .style_css
  else if (strstr line "GET /status.json ".toList).isSome then .status_json
  else if (strstr line "GET /config.json ".toList).isSome then .get_config_json
  else if (strstr line "POST /factory.json ".toList).isSome then .factory_json
  else if (strstr line "POST /config.json ".toList).isSome then .post_config_json
  else if (strstr line "DELETE /connect.json ".toList).isSome then .delete_connect_json
  else if (strstr line "POST /connect.json ".toList).isSome then .post_connect_json
  else .bad_request

/-- The size `buflen` of the line buffer of GET /config.json (line 226). -/
def config_buflen (cfg : Config) : Nat := cfg.MAX_COMMAND_LINE_SIZE + template.length + 1

/-- The name built at line 245 into `char autoexec_name[21]`. -/
def get_autoexec_name (i : Nat) : List Char :=
  snprintf (21 - 1) ("autoexec".toList ++ fmt_u i)

/-- The loop of lines 244-267, entered with counter `i`. -/
def get_config_loop (cfg : Config) (env : Env) : Nat → Nat → Option (List Event)
  | 0, _ => none
  | fuel + 1, i =>
    match env.alloc_get_config (get_autoexec_name i) with
    | none => some []
    | some autoexec_value =>
      match strreplace (autoexec_value.length + 1) autoexec_value "\"".toList "\\\"".toList with
      | none => none
      | some escaped =>
        match get_config_loop cfg env fuel (i + 1) with
        | none => none
        | some rest =>
          some ((if i > 1 then [Event.netconn_write array_separator] else []) ++
            Event.netconn_write
              (snprintf (config_buflen cfg - 1) (template_fmt (get_autoexec_name i) escaped))
            :: rest)

/-- The header name built at line 295 into `char autoexec_name[22]`. -/
def post_autoexec_name (i : Nat) : List Char :=
  snprintf (22 - 1) ("X-Custom-autoexec".toList ++ fmt_u i ++ ": ".toList)

/-- The key built at line 300 into `char autoexec_key[12]`. -/
def post_autoexec_key (i : Nat) : List Char :=
  snprintf (12 - 1) ("autoexec".toList ++ fmt_u i)

/-- The loop of lines 294-325, entered with counter `i`. -/
def post_config_loop (cfg : Config) (save_ptr : List Char) : Nat → Nat → Option (List Event)
  | 0, _ => none
  | fuel + 1, i =>
    match http_server_get_header save_ptr (post_autoexec_name i) with
    | (some autoexec_value, lenS) =>
      match post_config_loop cfg save_ptr fuel (i + 1) with
      | none => none
      | some rest =>
        some ((if lenS < cfg.MAX_COMMAND_LINE_SIZE
                then [Event.save_autoexec_config autoexec_value (post_autoexec_key i) lenS]
                else []) ++ rest)
    | (none, _) => some []

/-- Lines 287-292: the companion header carrying the flag, stored into a `uint8_t`. -/
def post_config_flag (save_ptr : List Char) : List Event :=
  match http_server_get_header save_ptr "X-Custom-autoexec: ".toList with
  | (some autoexec_flag_s, lenA) =>
    if lenA > 0 then [Event.save_autoexec_flag (atoi autoexec_flag_s % 256).toNat] else []
  | (none, _) => []

/-- The body of the branch taken by the chain of lines 169-371.  `save_ptr` is the text
after the request line. -/
def handler (fuel : Nat) (cfg : Config) (env : Env) (save_ptr : List Char) :
    Route → Option (List Event)
  | .home => some [.netconn_write http_html_hdr, .netconn_write cfg.index_html]
  | .jquery_js => some [.netconn_write http_jquery_gz_hdr, .netconn_write cfg.jquery_gz]
  | .code_js => some [.netconn_write http_js_hdr, .netconn_write cfg.code_js]
  | .ap_json =>
    some ((if env.lock_json_buffer then
            [.lock_json_buffer true, .netconn_write http_ok_json_no_cache_hdr,
             .netconn_write env.ap_list_json, .unlock_json_buffer]
          else [.lock_json_buffer false, .netconn_write http_503_hdr]) ++ [.scan_async])
  | .style_css => some [.netconn_write http_css_hdr, .netconn_write cfg.style_css]
  | .status_json =>
    if env.lock_json_buffer then
      match env.ip_info_json with
      | some buff =>
        some [.lock_json_buffer true, .netconn_write http_ok_json_no_cache_hdr,
              .netconn_write buff, .unlock_json_buffer]
      | none => some [.lock_json_buffer true, .netconn_write http_503_hdr]
    else some [.lock_json_buffer false, .netconn_write http_503_hdr]
  | .get_config_json =>
    if !env.malloc_ok then some [.netconn_write http_503_hdr]
    else
      match get_config_loop cfg env fuel 1 with
      | none => none
      | some items =>
        some ([.netconn_write http_ok_json_no_cache_hdr,
               .netconn_write (snprintf (config_buflen cfg - 1) (json_start_fmt (env.flag % 256)))]
              ++ items ++ [.netconn_write json_end])
  | .factory_json => some [.guided_factory]
  | .post_config_json =>
    if env.lock_json_buffer then
      match post_config_loop cfg save_ptr fuel 1 with
      | none => none
      | some saves =>
        some ([.lock_json_buffer true] ++ post_config_flag save_ptr ++ saves ++
              [.netconn_write http_ok_json_no_cache_hdr])
    else some [.lock_json_buffer false, .netconn_write http_503_hdr]
  | .delete_connect_json =>
    some [.disconnect_async, .netconn_write http_ok_json_no_cache_hdr]
  | .post_connect_json =>
    match http_server_get_header save_ptr "X-Custom-ssid: ".toList,
          http_server_get_header save_ptr "X-Custom-pwd: ".toList with
    | (some ssid, lenS), (some password, lenP) =>
      if lenS ≤ cfg.MAX_SSID_SIZE ∧ lenP ≤ cfg.MAX_PASSWORD_SIZE then
        some [.set_wifi_sta_config (ssid.take lenS) (password.take lenP), .connect_async,
              .netconn_write http_ok_json_no_cache_hdr]
      else some [.netconn_write http_400_hdr]
    | _, _ => some [.netconn_write http_400_hdr]
  | .bad_request => some [.netconn_write http_400_hdr]

/-- The connection handler, for a buffer `buf` that `netconn_recv` delivered with
`ERR_OK`.  The result is `none` only when a loop of a config.json branch is still
running after `fuel` iterations. -/
def http_server_netconn_serve (fuel : Nat) (cfg : Config) (env : Env) (buf : List Char) :
    Option (List Event) :=
  match strtok_r buf new_line with
  | some (line, save_ptr) =>
    if is_redirect cfg env save_ptr then
      some [.lock_sta_ip_string, .unlock_sta_ip_string,
            .netconn_write http_redirect_hdr_start,
            .netconn_write cfg.DEFAULT_AP_IP,
            .netconn_write http_redirect_hdr_end]
    else
      match handler fuel cfg env save_ptr (route line) with
      | none => none
      | some t => some (.lock_sta_ip_string :: .unlock_sta_ip_string :: t)
  | none => some [.netconn_write http_404_hdr]

/-! ## Vocabulary of the statements -/

/-- The status headers of lines 66-74: what begins a response. -/
def status_headers : List (List Char) :=
  [http_html_hdr, http_css_hdr, http_js_hdr, http_jquery_gz_hdr, http_400_hdr,
   http_404_hdr, http_503_hdr, http_ok_json_no_cache_hdr, http_redirect_hdr_start]

/-- The status headers written by the branches of the chain (neither 302 nor 404). -/
def direct_headers : List (List Char) :=
  [http_html_hdr, http_css_hdr, http_js_hdr, http_jquery_gz_hdr, http_400_hdr,
   http_503_hdr, http_ok_json_no_cache_hdr]

/-- The number of `netconn_write` calls of a run that write a status header. -/
def status_count (tr : List Event) : Nat :=
  ((writes tr).filter (fun w => decide (w ∈ status_headers))).length

/-- The texts handed to the server from outside: the assets, the portal address and the
two snapshots. -/
def payloads (cfg : Config) (env : Env) : List (List Char) :=
  [cfg.index_html, cfg.jquery_gz, cfg.code_js, cfg.style_css, cfg.DEFAULT_AP_IP,
   env.ap_list_json] ++ env.ip_info_json.toList

/-- No text handed to the server from outside is itself the text of a status header. -/
def payload_clean (cfg : Config) (env : Env) : Prop :=
  ∀ p ∈ payloads cfg env, p ∉ status_headers

/-- Whether the run on `buf` has a request line, is not redirected, and selects branch
`r` of the route chain. -/
def takes_route (cfg : Config) (env : Env) (buf : List Char) (r : Route) : Bool :=
  match strtok_r buf new_line with
  | some (line, save_ptr) => !is_redirect cfg env save_ptr && decide (route line = r)
  | none => false

/-- The configuration of the examples: portal address 10.10.0.1. -/
def example_cfg : Config :=
  { DEFAULT_AP_IP := "10.10.0.1".toList, MAX_SSID_SIZE := 32, MAX_PASSWORD_SIZE := 64,
    MAX_COMMAND_LINE_SIZE := 256, index_html := "<html></html>".toList,
    jquery_gz := "jq".toList, code_js := "js".toList, style_css := "css".toList }

/-- The collaborators of the examples: station address 192.168.1.5, the JSON lock free,
AP list `{"foo":1}`, no IP-info snapshot, an empty command store. -/
def example_env : Env :=
  { sta_ip_string := "192.168.1.5".toList, lock_json_buffer := true,
    ap_list_json := "\x7b\"foo\":1\x7d".toList, ip_info_json := none, flag := 0,
    alloc_get_config := fun _ => none, malloc_ok := true }

/-- The escaping asked of the JSON escaper, character by character: every quote becomes
a backslash followed by a quote, every other character stays. -/
def json_escape : List Char → List Char
  | [] => []
  | c :: cs => (if c = '"' then ['\\', '"'] else [c]) ++ json_escape cs

/-- The reference substitution of the specification: scan `src` from left to right; where
`str` begins, put `rep` and resume right after that occurrence (the counter is the
number of characters of the occurrence still to pass over); elsewhere keep the
character.  The text of `rep` is output, never scanned. -/
def replace_left_to_right (str rep : List Char) : Nat → List Char → List Char
  | _, [] => []
  | skip + 1, _ :: cs => replace_left_to_right str rep skip cs
  | 0, c :: cs =>
    if str.isPrefixOf (c :: cs) then rep ++ replace_left_to_right str rep (str.length - 1) cs
    else c :: replace_left_to_right str rep 0 cs

/-- The number of positions of a text at which `pat` begins. -/
def count_occurrences (pat : List Char) : List Char → Nat
  | [] => if pat = [] then 1 else 0
  | c :: cs => (if pat.isPrefixOf (c :: cs) then 1 else 0) + count_occurrences pat cs

/-- The line GET /config.json writes for index `i` holding command `v`: the template
filled with the key and the escaped command, as `snprintf` stores it in the line
buffer. -/
def config_entry (cfg : Config) (i : Nat) (v : List Char) : List Char :=
  snprintf (config_buflen cfg - 1) (template_fmt ("autoexec".toList ++ fmt_u i) (json_escape v))

/-- The lines GET /config.json writes for the commands `vs` stored at the indices `i`,
`i + 1`, and so on. -/
def config_entries (cfg : Config) : Nat → List (List Char) → List (List Char)
  | _, [] => []
  | i, v :: vs => config_entry cfg i v :: config_entries cfg (i + 1) vs

/-- The events of the loop of GET /config.json over the commands `vs` stored at the
indices `i`, `i + 1`, and so on: for each a separator, unless the index is 1, and the
line. -/
def entry_events (cfg : Config) : Nat → List (List Char) → List Event
  | _, [] => []
  | i, v :: vs =>
    (if i > 1 then [Event.netconn_write array_separator] else []) ++
      Event.netconn_write (config_entry cfg i v) :: entry_events cfg (i + 1) vs

/-- The handler the route table assigns to a method and a path: the entry whose text is
the method, a space, the path, a space; the 400 answer when there is none. -/
def table_lookup (M P : List Char) : Route :=
  (Route.table.find? (fun r => r.pattern == M ++ " ".toList ++ P ++ " ".toList)).getD
    .bad_request

/-- The number of `netconn_write` calls made while the JSON lock is held, `held` telling
whether it is held at the start. -/
def writes_under_lock : Bool → List Event → Nat
  | _, [] => 0
  | _, .lock_json_buffer true :: t => writes_under_lock true t
  | _, .unlock_json_buffer :: t => writes_under_lock false t
  | held, .netconn_write _ :: t => (if held then 1 else 0) + writes_under_lock held t
  | held, _ :: t => writes_under_lock held t

/-- Whether the JSON lock is held after the events, `held` telling whether it is held
before them. -/
def json_lock_held : Bool → List Event → Bool
  | held, [] => held
  | _, .lock_json_buffer true :: t => json_lock_held true t
  | _, .unlock_json_buffer :: t => json_lock_held false t
  | held, _ :: t => json_lock_held held t

/-- Whether the station-address lock is held after the events. -/
def sta_lock_held : Bool → List Event → Bool
  | held, [] => held
  | _, .lock_sta_ip_string :: t => sta_lock_held true t
  | _, .unlock_sta_ip_string :: t => sta_lock_held false t
  | held, _ :: t => sta_lock_held held t

/-- What a run hands to `wifi_manager_save_autoexec_config`, call by call: the key, the
first `len` characters of the value, and `len`. -/
def saved : List Event → List (List Char × List Char × Nat)
  | [] => []
  | .save_autoexec_config value key len :: t => (key, value.take len, len) :: saved t
  | _ :: t => saved t

/-- A command store with commands at the indices 1, 2 and 4 and none at 3. -/
def gap_store (name : List Char) : Option (List Char) :=
  if name = "autoexec1".toList then some "join \"home\"".toList
  else if name = "autoexec2".toList then some "play".toList
  else if name = "autoexec4".toList then some "never listed".toList
  else none

/-- A command store whose only command, at index 1, has 255 characters, the longest
that POST /config.json accepts when `MAX_COMMAND_LINE_SIZE` is 256. -/
def long_store (name : List Char) : Option (List Char) :=
  if name = "autoexec1".toList then some (List.replicate 255 'a') else none

/-- The headers of a POST /config.json request with the ten commands of the indices 1 to
10. -/
def ten_headers : List Char :=
  ("X-Custom-autoexec1: c1\r\nX-Custom-autoexec2: c2\r\nX-Custom-autoexec3: c3\r\n" ++
   "X-Custom-autoexec4: c4\r\nX-Custom-autoexec5: c5\r\nX-Custom-autoexec6: c6\r\n" ++
   "X-Custom-autoexec7: c7\r\nX-Custom-autoexec8: c8\r\nX-Custom-autoexec9: c9\r\n" ++
   "X-Custom-autoexec10: reboot\r\n\r\n").toList

/-! ## Facts about the C library functions -/


theorem strstr_none_iff (h n : List Char) : strstr h n = none ↔ ¬ n <:+: h := by
  induction h with
  | nil =>
    simp only [strstr]
    by_cases hn : n = []
    · simp [hn]
    · simp [hn]
  | cons c cs ih =>
    simp only [strstr]
    by_cases hp : n.isPrefixOf (c :: cs) = true
    · simp only [hp, if_true]
      have : n <+: c :: cs := List.isPrefixOf_iff_prefix.mp hp
      simp [this.isInfix]
    · simp only [hp]
      have hnp : ¬ n <+: c :: cs := fun h => hp (List.isPrefixOf_iff_prefix.mpr h)
      rw [if_neg (by simp), ih, List.infix_cons_iff]
      simp [hnp]

theorem strstr_some (h n p : List Char) (hs : strstr h n = some p) :
    ∃ pre, h = pre ++ p ∧ n <+: p ∧ ∀ k, k < pre.length → ¬ n <+: h.drop k := by
  induction h with
  | nil =>
    simp only [strstr] at hs
    by_cases hn : n = []
    · simp [hn] at hs
      subst hs; subst hn
      exact ⟨[], by simp⟩
    · simp [hn] at hs
  | cons c cs ih =>
    simp only [strstr] at hs
    by_cases hp : n.isPrefixOf (c :: cs) = true
    · simp only [hp, if_true, Option.some.injEq] at hs
      subst hs
      exact ⟨[], by simp, List.isPrefixOf_iff_prefix.mp hp, by simp⟩
    · rw [if_neg hp] at hs
      obtain ⟨pre, h1, h2, h3⟩ := ih hs
      refine ⟨c :: pre, by simp [h1], h2, ?_⟩
      intro k hk
      cases k with
      | zero => simpa using fun h => hp (List.isPrefixOf_iff_prefix.mpr h)
      | succ k =>
        simp only [List.drop_succ_cons]
        exact h3 k (by simpa using hk)

theorem take_length_takeWhile {α : Type} (p : α → Bool) (l : List α) :
    l.take (l.takeWhile p).length = l.takeWhile p := by
  induction l with
  | nil => rfl
  | cons a t ih =>
    by_cases h : p a = true
    · simp [List.takeWhile_cons, h, ih]
    · simp [List.takeWhile_cons, h]

theorem drop_length_takeWhile {α : Type} (p : α → Bool) (l : List α) :
    l.drop (l.takeWhile p).length = l.dropWhile p := by
  induction l with
  | nil => rfl
  | cons a t ih =>
    by_cases h : p a = true
    · simp [List.takeWhile_cons, List.dropWhile_cons, h, ih]
    · simp [List.takeWhile_cons, List.dropWhile_cons, h]

theorem head_dropWhile {α : Type} (p : α → Bool) (l : List α) (a : α)
    (h : (l.dropWhile p).head? = some a) : p a = false := by
  induction l with
  | nil => simp at h
  | cons b t ih =>
    by_cases hb : p b = true
    · simp only [List.dropWhile_cons, hb, if_true] at h
      exact ih h
    · simp only [List.dropWhile_cons, hb] at h
      simp at h
      subst h
      simpa using hb

/-- The value of `http_server_get_header` when the name occurs. -/
theorem get_header_of_strstr (request name p : List Char) (hs : strstr request name = some p) :
    http_server_get_header request name =
      (some (p.drop name.length),
       ((p.drop name.length).takeWhile (fun c => c != '\n' && c != '\r')).length) := by
  simp [http_server_get_header, hs]

theorem get_header_of_not_strstr (request name : List Char) (hs : strstr request name = none) :
    http_server_get_header request name = (none, 0) := by
  simp [http_server_get_header, hs]

/-! ## The captive-portal redirector -/

theorem found_some_iff (h n : List Char) : found (some h) n = true ↔ n <:+: h := by
  have key := strstr_none_iff h n
  simp only [found]
  cases hs : strstr h n with
  | none => simpa using (key.mp hs)
  | some p =>
    rw [hs] at key
    simpa using key

theorem is_redirect_eq (cfg : Config) (env : Env) (rest : List Char)
    (host : Option (List Char)) (lenH : Nat)
    (hh : http_server_get_header rest "Host: ".toList = (host, lenH)) :
    is_redirect cfg env rest =
      (decide (0 < lenH) && !found host cfg.DEFAULT_AP_IP && !found host env.sta_ip_string) := by
  unfold is_redirect
  simp only [hh]
  by_cases h : 0 < lenH
  · simp [h]
  · simp [h]

theorem serve_redirect (fuel : Nat) (cfg : Config) (env : Env) (buf line rest : List Char)
    (hline : strtok_r buf new_line = some (line, rest))
    (hr : is_redirect cfg env rest = true) :
    http_server_netconn_serve fuel cfg env buf =
      some [.lock_sta_ip_string, .unlock_sta_ip_string,
            .netconn_write http_redirect_hdr_start,
            .netconn_write cfg.DEFAULT_AP_IP,
            .netconn_write http_redirect_hdr_end] := by
  simp [http_server_netconn_serve, hline, hr]

theorem serve_direct (fuel : Nat) (cfg : Config) (env : Env) (buf line rest : List Char)
    (hline : strtok_r buf new_line = some (line, rest))
    (hr : is_redirect cfg env rest = false) :
    http_server_netconn_serve fuel cfg env buf =
      (handler fuel cfg env rest (route line)).map
        (fun t => .lock_sta_ip_string :: .unlock_sta_ip_string :: t) := by
  simp only [http_server_netconn_serve, hline, hr]
  cases handler fuel cfg env rest (route line) <;> simp

/-! ## What the branches write -/

theorem writes_append (a b : List Event) : writes (a ++ b) = writes a ++ writes b := by
  induction a with
  | nil => rfl
  | cons e t ih => cases e <;> simp [writes, ih]

theorem status_headers_head (w : List Char) (h : w ∈ status_headers) : w.head? = some 'H' := by
  simp only [status_headers, List.mem_cons, List.mem_singleton, List.not_mem_nil, or_false] at h
  rcases h with h | h | h | h | h | h | h | h | h <;> subst h <;> rfl

theorem direct_sub_status (w : List Char) (h : w ∈ direct_headers) : w ∈ status_headers := by
  simp only [direct_headers, List.mem_cons, List.mem_singleton, List.not_mem_nil, or_false] at h
  simp only [status_headers, List.mem_cons, List.mem_singleton, List.not_mem_nil, or_false]
  tauto

theorem not_404_of_direct (w : List Char) (h : w ∈ direct_headers) : w ≠ http_404_hdr := by
  simp only [direct_headers, List.mem_cons, List.mem_singleton, List.not_mem_nil, or_false] at h
  rcases h with h | h | h | h | h | h | h <;> subst h <;> decide

theorem not_302_of_direct (w : List Char) (h : w ∈ direct_headers) :
    w ≠ http_redirect_hdr_start := by
  simp only [direct_headers, List.mem_cons, List.mem_singleton, List.not_mem_nil, or_false] at h
  rcases h with h | h | h | h | h | h | h <;> subst h <;> decide

/-- A line cut by `snprintf` out of a text that opens with a brace is no status header. -/
theorem snprintf_brace_not_status (n : Nat) (l : List Char) :
    snprintf n ('\x7b' :: l) ∉ status_headers := by
  intro h
  have := status_headers_head _ h
  unfold snprintf at this
  cases hn : n - 1 with
  | zero => simp [hn] at this
  | succ k => simp [hn] at this

theorem post_config_flag_writes (rest : List Char) : writes (post_config_flag rest) = [] := by
  unfold post_config_flag
  split
  · split <;> rfl
  · rfl

theorem post_config_loop_writes (cfg : Config) (rest : List Char) (fuel i : Nat)
    (t : List Event) (h : post_config_loop cfg rest fuel i = some t) : writes t = [] := by
  induction fuel generalizing i t with
  | zero => simp [post_config_loop] at h
  | succ f ih =>
    unfold post_config_loop at h
    split at h
    · split at h
      · cases h
      · rename_i r hr
        simp only [Option.some.injEq] at h
        subst h
        rw [writes_append, ih _ _ hr]
        split <;> simp [writes]
    · simp only [Option.some.injEq] at h
      subst h; rfl

theorem get_config_loop_writes (cfg : Config) (env : Env) (fuel i : Nat)
    (t : List Event) (h : get_config_loop cfg env fuel i = some t) :
    ∀ b ∈ writes t, b ∉ status_headers := by
  induction fuel generalizing i t with
  | zero => simp [get_config_loop] at h
  | succ f ih =>
    unfold get_config_loop at h
    split at h
    · simp only [Option.some.injEq] at h
      subst h; simp [writes]
    · split at h
      · cases h
      · split at h
        · cases h
        · rename_i r hr
          simp only [Option.some.injEq] at h
          subst h
          intro b hb
          rw [writes_append] at hb
          simp only [writes, List.mem_append, List.mem_cons] at hb
          rcases hb with hb | hb | hb
          · split at hb
            · simp only [writes, List.mem_singleton] at hb
              subst hb; decide
            · simp [writes] at hb
          · subst hb
            exact snprintf_brace_not_status _ _
          · exact ih _ _ hr b hb


/-- What a branch of the chain writes: nothing for POST /factory.json; for every other
branch one header of `direct_headers`, then texts that come from outside or are no
status header. -/
theorem handler_writes (fuel : Nat) (cfg : Config) (env : Env) (rest : List Char)
    (r : Route) (t : List Event) (h : handler fuel cfg env rest r = some t) :
    (r = .factory_json ∧ writes t = []) ∨
    (r ≠ .factory_json ∧ ∃ hd body, writes t = hd :: body ∧ hd ∈ direct_headers ∧
      ∀ b ∈ body, b ∈ payloads cfg env ∨ b ∉ status_headers) := by
  cases r with
  | home =>
    simp only [handler, Option.some.injEq] at h; subst h
    exact Or.inr ⟨by decide, _, _, rfl, by simp [direct_headers], by
      intro b hb
      simp only [writes, List.mem_singleton] at hb
      subst hb
      exact Or.inl (by simp [payloads])⟩
  | jquery_js =>
    simp only [handler, Option.some.injEq] at h; subst h
    exact Or.inr ⟨by decide, _, _, rfl, by simp [direct_headers], by
      intro b hb
      simp only [writes, List.mem_singleton] at hb
      subst hb
      exact Or.inl (by simp [payloads])⟩
  | code_js =>
    simp only [handler, Option.some.injEq] at h; subst h
    exact Or.inr ⟨by decide, _, _, rfl, by simp [direct_headers], by
      intro b hb
      simp only [writes, List.mem_singleton] at hb
      subst hb
      exact Or.inl (by simp [payloads])⟩
  | style_css =>
    simp only [handler, Option.some.injEq] at h; subst h
    exact Or.inr ⟨by decide, _, _, rfl, by simp [direct_headers], by
      intro b hb
      simp only [writes, List.mem_singleton] at hb
      subst hb
      exact Or.inl (by simp [payloads])⟩
  | ap_json =>
    simp only [handler, Option.some.injEq] at h; subst h
    refine Or.inr ⟨by decide, ?_⟩
    cases env.lock_json_buffer
    · exact ⟨_, _, rfl, by simp [direct_headers], by simp [writes]⟩
    · exact ⟨_, _, rfl, by simp [direct_headers], by
      intro b hb
      simp only [writes, List.mem_singleton] at hb
      subst hb
      exact Or.inl (by simp [payloads])⟩
  | status_json =>
    refine Or.inr ⟨by decide, ?_⟩
    simp only [handler] at h
    cases hl : env.lock_json_buffer
    · simp only [hl, Bool.false_eq_true, if_false, Option.some.injEq] at h; subst h
      exact ⟨_, _, rfl, by simp [direct_headers], by simp [writes]⟩
    · simp only [hl, if_true] at h
      cases hi : env.ip_info_json with
      | none =>
        simp only [hi, Option.some.injEq] at h; subst h
        exact ⟨_, _, rfl, by simp [direct_headers], by simp [writes]⟩
      | some b =>
        simp only [hi, Option.some.injEq] at h; subst h
        refine ⟨_, _, rfl, by simp [direct_headers], ?_⟩
        intro c hc
        simp only [writes, List.mem_singleton] at hc
        subst hc
        exact Or.inl (by simp [payloads, hi])
  | get_config_json =>
    refine Or.inr ⟨by decide, ?_⟩
    simp only [handler] at h
    cases hm : env.malloc_ok
    · simp only [hm, Bool.not_false, if_true, Option.some.injEq] at h; subst h
      exact ⟨_, _, rfl, by simp [direct_headers], by simp [writes]⟩
    · simp only [hm, Bool.not_true, Bool.false_eq_true, if_false] at h
      cases hg : get_config_loop cfg env fuel 1 with
      | none => simp [hg] at h
      | some items =>
        simp only [hg, Option.some.injEq] at h; subst h
        refine ⟨http_ok_json_no_cache_hdr,
          snprintf (config_buflen cfg - 1) (json_start_fmt (env.flag % 256)) ::
            (writes items ++ [json_end]), ?_, by simp [direct_headers], ?_⟩
        · simp [writes_append, writes]
        · intro b hb
          simp only [List.mem_cons, List.mem_append, List.not_mem_nil, or_false] at hb
          refine Or.inr ?_
          rcases hb with hb | hb | hb
          · subst hb; exact snprintf_brace_not_status _ _
          · exact get_config_loop_writes cfg env fuel 1 items hg b hb
          · subst hb; decide
  | factory_json =>
    simp only [handler, Option.some.injEq] at h; subst h
    exact Or.inl ⟨rfl, rfl⟩
  | post_config_json =>
    refine Or.inr ⟨by decide, ?_⟩
    simp only [handler] at h
    cases hl : env.lock_json_buffer
    · simp only [hl, Bool.false_eq_true, if_false, Option.some.injEq] at h; subst h
      exact ⟨_, _, rfl, by simp [direct_headers], by simp [writes]⟩
    · simp only [hl, if_true] at h
      cases hg : post_config_loop cfg rest fuel 1 with
      | none => simp [hg] at h
      | some saves =>
        simp only [hg, Option.some.injEq] at h; subst h
        refine ⟨http_ok_json_no_cache_hdr, [], ?_, by simp [direct_headers], by simp⟩
        simp [writes_append, writes, post_config_flag_writes,
          post_config_loop_writes cfg rest fuel 1 saves hg]
  | delete_connect_json =>
    simp only [handler, Option.some.injEq] at h; subst h
    exact Or.inr ⟨by decide, _, _, rfl, by simp [direct_headers], by simp [writes]⟩
  | post_connect_json =>
    refine Or.inr ⟨by decide, ?_⟩
    simp only [handler] at h
    split at h
    · split at h
      · simp only [Option.some.injEq] at h; subst h
        exact ⟨_, _, rfl, by simp [direct_headers], by simp [writes]⟩
      · simp only [Option.some.injEq] at h; subst h
        exact ⟨_, _, rfl, by simp [direct_headers], by simp [writes]⟩
    · simp only [Option.some.injEq] at h; subst h
      exact ⟨_, _, rfl, by simp [direct_headers], by simp [writes]⟩
  | bad_request =>
    simp only [handler, Option.some.injEq] at h; subst h
    exact Or.inr ⟨by decide, _, _, rfl, by simp [direct_headers], by simp [writes]⟩

/-! ## The request line, the route chain and the two loops -/

theorem strstr_isSome_iff (h n : List Char) : (strstr h n).isSome = true ↔ n <:+: h := by
  have key := strstr_none_iff h n
  cases hs : strstr h n with
  | none => simpa using (key.mp hs)
  | some p =>
    rw [hs] at key
    simpa using key

theorem strtok_r_none_iff (buf : List Char) :
    strtok_r buf new_line = none ↔ ∀ c ∈ buf, c = '\n' := by
  have hd : List.dropWhile (fun c => new_line.contains c) buf = [] ↔ ∀ c ∈ buf, c = '\n' := by
    rw [List.dropWhile_eq_nil_iff]
    constructor
    · intro h c hc
      simpa [new_line] using h c hc
    · intro h c hc
      simpa [new_line] using h c hc
  unfold strtok_r
  by_cases hb : List.dropWhile (fun c => new_line.contains c) buf = []
  · simp only [hb, if_true, true_iff]
    exact hd.mp hb
  · simp only [hb, if_false]
    constructor
    · intro h; cases h
    · intro h; exact absurd (hd.mpr h) hb

theorem route_eq_find (line : List Char) :
    route line =
      (Route.table.find? (fun r => (strstr line r.pattern).isSome)).getD .bad_request := by
  simp only [route, Route.table, List.find?_cons, Route.pattern]
  cases (strstr line "GET / ".toList).isSome
  case true => rfl
  cases (strstr line "GET /jquery.js ".toList).isSome
  case true => rfl
  cases (strstr line "GET /code.js ".toList).isSome
  case true => rfl
  cases (strstr line "GET /ap.json ".toList).isSome
  case true => rfl
  cases (strstr line "GET /style.css ".toList).isSome
  case true => rfl
  cases (strstr line "GET /status.json ".toList).isSome
  case true => rfl
  cases (strstr line "GET /config.json ".toList).isSome
  case true => rfl
  cases (strstr line "POST /factory.json ".toList).isSome
  case true => rfl
  cases (strstr line "POST /config.json ".toList).isSome
  case true => rfl
  cases (strstr line "DELETE /connect.json ".toList).isSome
  case true => rfl
  cases (strstr line "POST /connect.json ".toList).isSome
  case true => rfl
  rfl


theorem route_pattern_found (line : List Char) (h : route line ≠ .bad_request) :
    (route line).pattern <:+: line := by
  rw [route_eq_find] at h ⊢
  cases hf : Route.table.find? (fun r => (strstr line r.pattern).isSome) with
  | none => rw [hf] at h; exact absurd rfl h
  | some r =>
    have := List.find?_some hf
    simpa using (strstr_isSome_iff _ _).mp this

theorem route_bad_iff (line : List Char) :
    route line = .bad_request ↔ ∀ r ∈ Route.table, ¬ r.pattern <:+: line := by
  rw [route_eq_find]
  cases hf : Route.table.find? (fun r => (strstr line r.pattern).isSome) with
  | none =>
    simp only [Option.getD_none, true_iff]
    intro r hr hin
    have := List.find?_eq_none.mp hf r hr
    exact this ((strstr_isSome_iff _ _).mpr hin)
  | some r =>
    have hp := List.find?_some hf
    have hm := List.mem_of_find?_eq_some hf
    simp only [Option.getD_some]
    constructor
    · intro hb
      rw [hb] at hm
      exact absurd hm (by decide)
    · intro hall
      exact absurd ((strstr_isSome_iff _ _).mp hp) (hall r hm)

theorem strreplace_terminates (fuel : Nat) (src str rep : List Char) (hstr : str ≠ [])
    (hf : src.length < fuel) : ∃ r, strreplace fuel src str rep = some r := by
  induction fuel generalizing src with
  | zero => omega
  | succ f ih =>
    unfold strreplace
    cases hs : strstr src str with
    | none => exact ⟨_, rfl⟩
    | some p =>
      obtain ⟨pre, h1, h2, _⟩ := strstr_some _ _ _ hs
      have hl : (p.drop str.length).length < f := by
        have h3 := h2.length_le
        have h4 : 0 < str.length := List.length_pos.mpr hstr
        have h5 : src.length = pre.length + p.length := by rw [h1]; simp
        simp only [List.length_drop]
        omega
      obtain ⟨r, hr⟩ := ih (p.drop str.length) hl
      simp only [hr]
      exact ⟨_, rfl⟩

theorem get_config_loop_terminates (cfg : Config) (env : Env) (d i fuel : Nat)
    (hmiss : env.alloc_get_config (get_autoexec_name (i + d)) = none) (hf : d < fuel) :
    ∃ t, get_config_loop cfg env fuel i = some t := by
  induction d generalizing i fuel with
  | zero =>
    cases fuel with
    | zero => omega
    | succ f =>
      unfold get_config_loop
      simp only [Nat.add_zero] at hmiss
      simp only [hmiss]
      exact ⟨_, rfl⟩
  | succ d ih =>
    cases fuel with
    | zero => omega
    | succ f =>
      unfold get_config_loop
      cases hv : env.alloc_get_config (get_autoexec_name i) with
      | none => exact ⟨_, rfl⟩
      | some v =>
        obtain ⟨e, he⟩ := strreplace_terminates (v.length + 1) v "\"".toList "\\\"".toList
          (by decide) (Nat.lt_succ_self _)
        obtain ⟨t, ht⟩ := ih (i + 1) f (by rw [← hmiss]; congr 2; omega) (by omega)
        simp only [he, ht]
        exact ⟨_, rfl⟩

theorem post_config_loop_terminates (cfg : Config) (rest : List Char) (d i fuel : Nat)
    (hmiss : (http_server_get_header rest (post_autoexec_name (i + d))).1 = none)
    (hf : d < fuel) :
    ∃ t, post_config_loop cfg rest fuel i = some t := by
  induction d generalizing i fuel with
  | zero =>
    cases fuel with
    | zero => omega
    | succ f =>
      unfold post_config_loop
      simp only [Nat.add_zero] at hmiss
      split
      · rename_i v l hv
        rw [hv] at hmiss; cases hmiss
      · exact ⟨_, rfl⟩
  | succ d ih =>
    cases fuel with
    | zero => omega
    | succ f =>
      unfold post_config_loop
      obtain ⟨t, ht⟩ := ih (i + 1) f (by rw [← hmiss]; congr 3; omega) (by omega)
      split
      · simp only [ht]
        exact ⟨_, rfl⟩
      · exact ⟨_, rfl⟩

/-! ## Runs that are not redirected -/

theorem strtok_r_suffix (buf delim line rest : List Char)
    (h : strtok_r buf delim = some (line, rest)) : rest <:+ buf := by
  simp only [strtok_r] at h
  split at h
  · cases h
  · simp only [Option.some.injEq, Prod.mk.injEq] at h
    rw [← h.2]
    exact ((List.drop_suffix _ _).trans (List.dropWhile_suffix _)).trans
      (List.dropWhile_suffix _)

theorem get_header_none_of_not_found (request name : List Char) (h : ¬ name <:+: request) :
    (http_server_get_header request name).1 = none := by
  rw [get_header_of_not_strstr _ _ ((strstr_none_iff _ _).mpr h)]

theorem writes_direct (t : List Event) :
    writes (.lock_sta_ip_string :: .unlock_sta_ip_string :: t) = writes t := rfl

/-- What a run with a request line and no redirect writes. -/
theorem serve_direct_writes (fuel : Nat) (cfg : Config) (env : Env)
    (buf line rest : List Char) (tr : List Event)
    (hline : strtok_r buf new_line = some (line, rest))
    (hr : is_redirect cfg env rest = false)
    (h : http_server_netconn_serve fuel cfg env buf = some tr) :
    (route line = .factory_json ∧ writes tr = []) ∨
    (route line ≠ .factory_json ∧
      ∃ hd body, writes tr = hd :: body ∧ hd ∈ direct_headers ∧
        ∀ b ∈ body, b ∈ payloads cfg env ∨ b ∉ status_headers) := by
  rw [serve_direct fuel cfg env buf line rest hline hr] at h
  cases ht : handler fuel cfg env rest (route line) with
  | none => rw [ht] at h; cases h
  | some t =>
    rw [ht] at h
    simp only [Option.map_some', Option.some.injEq] at h
    subst h
    rw [writes_direct]
    exact handler_writes fuel cfg env rest (route line) t ht

theorem status_count_one (hd : List Char) (body : List (List Char)) (tr : List Event)
    (hw : writes tr = hd :: body) (hhd : hd ∈ status_headers)
    (hbody : ∀ b ∈ body, b ∉ status_headers) : status_count tr = 1 := by
  unfold status_count
  rw [hw, List.filter_cons_of_pos (by simpa using hhd)]
  have : body.filter (fun w => decide (w ∈ status_headers)) = [] := by
    rw [List.filter_eq_nil_iff]
    intro b hb
    simpa using hbody b hb
  rw [this]; rfl

theorem serve_of_handler (fuel : Nat) (cfg : Config) (env : Env)
    (buf line rest : List Char) (t : List Event)
    (hline : strtok_r buf new_line = some (line, rest))
    (hr : is_redirect cfg env rest = false)
    (ht : handler fuel cfg env rest (route line) = some t) :
    http_server_netconn_serve fuel cfg env buf =
      some (.lock_sta_ip_string :: .unlock_sta_ip_string :: t) := by
  rw [serve_direct fuel cfg env buf line rest hline hr, ht]; rfl

theorem handler_terminates (cfg : Config) (env : Env) (rest : List Char) (r : Route)
    (k₁ k₂ fuel : Nat)
    (h₁ : env.alloc_get_config (get_autoexec_name (1 + k₁)) = none)
    (h₂ : (http_server_get_header rest (post_autoexec_name (1 + k₂))).1 = none)
    (hf₁ : k₁ < fuel) (hf₂ : k₂ < fuel) :
    ∃ t, handler fuel cfg env rest r = some t := by
  cases r with
  | get_config_json =>
    simp only [handler]
    obtain ⟨t, ht⟩ := get_config_loop_terminates cfg env k₁ 1 fuel h₁ hf₁
    rw [ht]
    split <;> exact ⟨_, rfl⟩
  | post_config_json =>
    simp only [handler]
    obtain ⟨t, ht⟩ := post_config_loop_terminates cfg rest k₂ 1 fuel h₂ hf₂
    rw [ht]
    split <;> exact ⟨_, rfl⟩
  | status_json =>
    simp only [handler]
    split
    · split <;> exact ⟨_, rfl⟩
    · exact ⟨_, rfl⟩
  | post_connect_json =>
    simp only [handler]
    split
    · split <;> exact ⟨_, rfl⟩
    · exact ⟨_, rfl⟩
  | _ => exact ⟨_, rfl⟩

/-! ## The escaper -/

theorem replace_skip (str rep : List Char) (k : Nat) (l : List Char) :
    replace_left_to_right str rep k l = replace_left_to_right str rep 0 (l.drop k) := by
  induction l generalizing k with
  | nil => cases k <;> simp [replace_left_to_right]
  | cons c cs ih =>
    cases k with
    | zero => rfl
    | succ k => simp only [replace_left_to_right, List.drop_succ_cons]; exact ih k

theorem replace_of_strstr_none (str rep src : List Char) (h : strstr src str = none) :
    replace_left_to_right str rep 0 src = src := by
  induction src with
  | nil => rfl
  | cons c cs ih =>
    simp only [strstr] at h
    by_cases hp : str.isPrefixOf (c :: cs) = true
    · simp [hp] at h
    · rw [if_neg hp] at h
      simp only [replace_left_to_right, hp, ih h]
      simp

theorem replace_of_strstr_some (str rep src p : List Char) (hstr : str ≠ [])
    (h : strstr src str = some p) :
    replace_left_to_right str rep 0 src =
      src.take (src.length - p.length) ++ rep ++
        replace_left_to_right str rep 0 (p.drop str.length) := by
  induction src with
  | nil =>
    simp only [strstr] at h
    simp [hstr] at h
  | cons c cs ih =>
    simp only [strstr] at h
    by_cases hp : str.isPrefixOf (c :: cs) = true
    · simp only [hp, if_true, Option.some.injEq] at h
      subst h
      simp only [replace_left_to_right, hp, if_true, Nat.sub_self, List.take_zero,
        List.nil_append]
      rw [replace_skip]
      congr 2
      obtain ⟨n, hn⟩ : ∃ n, str.length = n + 1 :=
        ⟨str.length - 1, by have := List.length_pos.mpr hstr; omega⟩
      rw [hn]; simp
    · rw [if_neg hp] at h
      obtain ⟨pre, h1, _, _⟩ := strstr_some _ _ _ h
      have hl : cs.length = pre.length + p.length := by rw [h1]; simp
      simp only [replace_left_to_right, hp, ih h]
      have : (c :: cs).length - p.length = (cs.length - p.length) + 1 := by
        simp only [List.length_cons]; omega
      rw [this]
      simp

/-- The substitution of the source is the reference substitution, given fuel. -/
theorem strreplace_eq_reference (fuel : Nat) (src str rep : List Char) (hstr : str ≠ [])
    (hf : src.length < fuel) :
    strreplace fuel src str rep = some (replace_left_to_right str rep 0 src) := by
  induction fuel generalizing src with
  | zero => omega
  | succ f ih =>
    unfold strreplace
    cases hs : strstr src str with
    | none => simp only [replace_of_strstr_none str rep src hs]
    | some p =>
      obtain ⟨pre, h1, h2, _⟩ := strstr_some _ _ _ hs
      have hl : (p.drop str.length).length < f := by
        have h3 := h2.length_le
        have h4 : 0 < str.length := List.length_pos.mpr hstr
        have h5 : src.length = pre.length + p.length := by rw [h1]; simp
        simp only [List.length_drop]
        omega
      simp only [ih (p.drop str.length) hl, replace_of_strstr_some str rep src p hstr hs]

theorem reference_quote_eq_escape (s : List Char) :
    replace_left_to_right "\"".toList "\\\"".toList 0 s = json_escape s := by
  induction s with
  | nil => rfl
  | cons c cs ih =>
    by_cases hc : c = '"'
    · subst hc
      simp only [replace_left_to_right, json_escape, if_true]
      rw [if_pos (by simp [List.isPrefixOf])]
      show "\\\"".toList ++ replace_left_to_right "\"".toList "\\\"".toList 0 cs = _
      rw [ih]
      rfl
    · simp only [replace_left_to_right, json_escape, if_neg hc]
      rw [if_neg (by simpa [List.isPrefixOf] using fun h => hc h.symm), ih]
      rfl

theorem strreplace_quote (fuel : Nat) (s : List Char) (hf : s.length < fuel) :
    strreplace fuel s "\"".toList "\\\"".toList = some (json_escape s) := by
  rw [strreplace_eq_reference fuel s _ _ (by decide) hf, reference_quote_eq_escape]

theorem json_escape_head (s : List Char) : (json_escape s).head? ≠ some '"' := by
  cases s with
  | nil => simp [json_escape]
  | cons c cs =>
    by_cases hc : c = '"'
    · simp [json_escape, hc]
    · simp [json_escape, hc]

theorem json_escape_length (s : List Char) :
    (json_escape s).length = s.length + s.count '"' := by
  induction s with
  | nil => rfl
  | cons c cs ih =>
    by_cases hc : c = '"'
    · subst hc
      simp only [json_escape, if_true, List.length_append, List.length_cons, List.length_nil,
        ih, List.count_cons_self]
      omega
    · simp only [json_escape, if_neg hc, List.length_append, List.length_cons,
        List.length_nil, ih, List.count_cons_of_ne (Ne.symm hc)]
      omega

theorem json_escape_count_quote (s : List Char) :
    (json_escape s).count '"' = s.count '"' := by
  induction s with
  | nil => rfl
  | cons c cs ih =>
    by_cases hc : c = '"'
    · subst hc
      simp [json_escape, List.count_cons, ih]
    · simp [json_escape, hc, List.count_cons, ih]

theorem json_escape_of_no_quote (s : List Char) (h : '"' ∉ s) : json_escape s = s := by
  induction s with
  | nil => rfl
  | cons c cs ih =>
    have hc : c ≠ '"' := fun e => h (by simp [e])
    have hcs : '"' ∉ cs := fun e => h (List.mem_cons_of_mem _ e)
    simp [json_escape, hc, ih hcs]

theorem json_escape_occurrences (s : List Char) :
    count_occurrences "\\\"".toList (json_escape s) = s.count '"' := by
  induction s with
  | nil => rfl
  | cons c cs ih =>
    have hh := json_escape_head cs
    by_cases hc : c = '"'
    · subst hc
      simp only [json_escape, if_true, List.count_cons_self]
      show count_occurrences _ ('\\' :: '"' :: json_escape cs) = _
      simp only [count_occurrences, ih]
      rw [if_pos (by simp [List.isPrefixOf]), if_neg (by simp [List.isPrefixOf])]
      omega
    · simp only [json_escape, if_neg hc, List.count_cons_of_ne (Ne.symm hc)]
      show count_occurrences _ (c :: json_escape cs) = _
      simp only [count_occurrences, ih]
      rw [if_neg]
      · omega
      · cases hj : json_escape cs with
        | nil => simp [List.isPrefixOf]
        | cons d ds =>
          rw [hj] at hh
          have hd : d ≠ '"' := by simpa using hh
          simp only [String.toList, List.isPrefixOf, Bool.and_eq_true, beq_iff_eq,
            Bool.and_true, not_and]
          intro _ h
          exact hd h.symm

theorem json_escape_preceded (s : List Char) (pre post : List Char)
    (h : json_escape s = pre ++ '"' :: post) : ∃ pre', pre = pre' ++ ['\\'] := by
  induction s generalizing pre with
  | nil => simp [json_escape] at h
  | cons c cs ih =>
    have hh := json_escape_head cs
    by_cases hc : c = '"'
    · subst hc
      simp only [json_escape, if_true, List.cons_append, List.nil_append] at h
      match pre, h with
      | [], h => simp at h
      | [a], h =>
        simp only [List.cons_append, List.nil_append, List.cons.injEq] at h
        exact ⟨[], by simp [← h.1]⟩
      | a :: b :: pre2, h =>
        simp only [List.cons_append, List.cons.injEq] at h
        obtain ⟨_, _, h3⟩ := h
        match pre2, h3 with
        | [], h3 => rw [h3] at hh; simp at hh
        | x :: xs, h3 =>
          obtain ⟨q, hq⟩ := ih (x :: xs) h3
          exact ⟨a :: b :: q, by simp [hq]⟩
    · simp only [json_escape, if_neg hc, List.cons_append, List.nil_append] at h
      match pre, h with
      | [], h =>
        simp only [List.nil_append, List.cons.injEq] at h
        exact absurd h.1 hc
      | a :: pre2, h =>
        simp only [List.cons_append, List.cons.injEq] at h
        obtain ⟨_, h3⟩ := h
        match pre2, h3 with
        | [], h3 => rw [h3] at hh; simp at hh
        | x :: xs, h3 =>
          obtain ⟨q, hq⟩ := ih (x :: xs) h3
          exact ⟨a :: q, by simp [hq]⟩

/-! ## The loop of GET /config.json -/

theorem fmt_u_length (i e : Nat) (he : 0 < e) (h : i < 10 ^ e) : (fmt_u i).length ≤ e :=
  Nat.toDigitsCore_length 10 (by decide) (i + 1) i e h he

theorem get_autoexec_name_eq (i : Nat) (h : i < 10 ^ 11) :
    get_autoexec_name i = "autoexec".toList ++ fmt_u i := by
  have hl := fmt_u_length i 11 (by decide) h
  unfold get_autoexec_name snprintf
  apply List.take_of_length_le
  simp only [List.length_append]
  have : "autoexec".toList.length = 8 := rfl
  omega

theorem get_config_loop_enumerates (cfg : Config) (env : Env) (vs : List (List Char))
    (i fuel : Nat) (hi : i + vs.length < 10 ^ 11)
    (hp : ∀ j v, vs[j]? = some v →
      env.alloc_get_config ("autoexec".toList ++ fmt_u (i + j)) = some v)
    (ha : env.alloc_get_config ("autoexec".toList ++ fmt_u (i + vs.length)) = none)
    (hf : vs.length < fuel) :
    get_config_loop cfg env fuel i = some (entry_events cfg i vs) := by
  induction vs generalizing i fuel with
  | nil =>
    cases fuel with
    | zero => simp at hf
    | succ f =>
      simp only [List.length_nil, Nat.add_zero] at ha hi
      simp only [get_config_loop, get_autoexec_name_eq i hi, ha, entry_events]
  | cons v vs ih =>
    cases fuel with
    | zero => simp at hf
    | succ f =>
      simp only [List.length_cons] at ha hi hf
      have h0 := hp 0 v (by simp)
      simp only [Nat.add_zero] at h0
      have hrec := ih (i + 1) f (by omega)
        (fun j w hj => by
          have := hp (j + 1) w (by simpa using hj)
          rwa [show i + (j + 1) = i + 1 + j by omega] at this)
        (by rwa [show i + 1 + vs.length = i + (vs.length + 1) by omega])
        (by omega)
      simp only [get_config_loop, get_autoexec_name_eq i (by omega), h0,
        strreplace_quote _ v (Nat.lt_succ_self _), hrec, entry_events, config_entry]

theorem intersperse_cons_eq {α : Type} (sep a : α) (l : List α) :
    List.intersperse sep (a :: l) = a :: (l.map (fun x => [sep, x])).flatten := by
  induction l generalizing a with
  | nil => rfl
  | cons b t ih => rw [List.intersperse_cons₂, ih]; rfl

theorem entry_events_writes_tail (cfg : Config) (vs : List (List Char)) (i : Nat)
    (hi : 1 < i) :
    writes (entry_events cfg i vs) =
      ((config_entries cfg i vs).map (fun x => [array_separator, x])).flatten := by
  induction vs generalizing i with
  | nil => rfl
  | cons v vs ih =>
    simp only [entry_events, if_pos hi, config_entries, List.map_cons, List.flatten_cons]
    simp only [List.singleton_append, writes, ih (i + 1) (by omega)]
    rfl

theorem entry_events_writes (cfg : Config) (vs : List (List Char)) :
    writes (entry_events cfg 1 vs) =
      List.intersperse array_separator (config_entries cfg 1 vs) := by
  cases vs with
  | nil => rfl
  | cons v vs =>
    simp only [entry_events, config_entries, intersperse_cons_eq]
    simp only [gt_iff_lt, Nat.lt_irrefl, if_false, List.nil_append, writes,
      entry_events_writes_tail cfg vs 2 (by decide)]

theorem config_entries_length (cfg : Config) (vs : List (List Char)) (i : Nat) :
    (config_entries cfg i vs).length = vs.length := by
  induction vs generalizing i with
  | nil => rfl
  | cons v vs ih => simp [config_entries, ih]

/-! ## Request lines of three words -/

theorem split_at_space (x x' y y' : List Char) (hx : ' ' ∉ x) (hx' : ' ' ∉ x')
    (h : x ++ ' ' :: y = x' ++ ' ' :: y') : x = x' ∧ y = y' := by
  induction x generalizing x' with
  | nil =>
    cases x' with
    | nil => simpa using h
    | cons a t =>
      simp only [List.nil_append, List.cons_append, List.cons.injEq] at h
      exact absurd (by simp [← h.1]) hx'
  | cons c cs ih =>
    cases x' with
    | nil =>
      simp only [List.nil_append, List.cons_append, List.cons.injEq] at h
      exact absurd (by simp [h.1]) hx
    | cons a t =>
      simp only [List.cons_append, List.cons.injEq] at h
      obtain ⟨h1, h2⟩ := ih t (fun e => hx (List.mem_cons_of_mem _ e))
        (fun e => hx' (List.mem_cons_of_mem _ e)) h.2
      exact ⟨by rw [h.1, h1], h2⟩

theorem pattern_found_iff (m path M P V : List Char) (hm : ' ' ∉ m) (hpath : ' ' ∉ path)
    (hM : ' ' ∉ M) (hP : ' ' ∉ P) (hV : ' ' ∉ V) :
    (m ++ ' ' :: (path ++ [' '])) <:+: (M ++ ' ' :: (P ++ ' ' :: V)) ↔
      m <:+ M ∧ path = P := by
  constructor
  · rintro ⟨a, b, h⟩
    have hc := congrArg (List.count ' ') h
    simp only [List.count_append, List.count_cons_self, List.count_nil,
      List.count_eq_zero_of_not_mem hm, List.count_eq_zero_of_not_mem hpath,
      List.count_eq_zero_of_not_mem hM, List.count_eq_zero_of_not_mem hP,
      List.count_eq_zero_of_not_mem hV] at hc
    have ha : ' ' ∉ a := List.count_eq_zero.mp (by omega)
    have h' : (a ++ m) ++ ' ' :: (path ++ ' ' :: b) = M ++ ' ' :: (P ++ ' ' :: V) := by
      rw [← h]; simp
    obtain ⟨h1, h2⟩ := split_at_space _ _ _ _
      (by simp only [List.mem_append, not_or]; exact ⟨ha, hm⟩) hM h'
    obtain ⟨h3, _⟩ := split_at_space _ _ _ _ hpath hP h2
    exact ⟨⟨a, h1⟩, h3⟩
  · rintro ⟨⟨a, h1⟩, h2⟩
    refine ⟨a, V, ?_⟩
    rw [← h1, h2]; simp

/-- The three methods of the route table. -/
theorem table_shape (r : Route) (hr : r ∈ Route.table) :
    ∃ m path, m ∈ ["GET".toList, "POST".toList, "DELETE".toList] ∧ ' ' ∉ path ∧
      r.pattern = m ++ ' ' :: (path ++ [' ']) := by
  simp only [Route.table, List.mem_cons, List.mem_singleton, List.not_mem_nil,
    or_false] at hr
  rcases hr with h | h | h | h | h | h | h | h | h | h | h <;> subst h
  · exact ⟨"GET".toList, "/".toList, by decide, by decide, by decide⟩
  · exact ⟨"GET".toList, "/jquery.js".toList, by decide, by decide, by decide⟩
  · exact ⟨"GET".toList, "/code.js".toList, by decide, by decide, by decide⟩
  · exact ⟨"GET".toList, "/ap.json".toList, by decide, by decide, by decide⟩
  · exact ⟨"GET".toList, "/style.css".toList, by decide, by decide, by decide⟩
  · exact ⟨"GET".toList, "/status.json".toList, by decide, by decide, by decide⟩
  · exact ⟨"GET".toList, "/config.json".toList, by decide, by decide, by decide⟩
  · exact ⟨"POST".toList, "/factory.json".toList, by decide, by decide, by decide⟩
  · exact ⟨"POST".toList, "/config.json".toList, by decide, by decide, by decide⟩
  · exact ⟨"DELETE".toList, "/connect.json".toList, by decide, by decide, by decide⟩
  · exact ⟨"POST".toList, "/connect.json".toList, by decide, by decide, by decide⟩

theorem method_suffix_eq :
    ∀ m ∈ ["GET".toList, "POST".toList, "DELETE".toList],
      ∀ M ∈ ["GET".toList, "POST".toList, "DELETE".toList], m <:+ M → m = M := by
  decide

theorem method_no_space :
    ∀ m ∈ ["GET".toList, "POST".toList, "DELETE".toList], ' ' ∉ m := by
  decide

theorem find_congr {α : Type} (p q : α → Bool) (l : List α)
    (h : ∀ a ∈ l, p a = q a) : l.find? p = l.find? q := by
  induction l with
  | nil => rfl
  | cons a t ih =>
    simp only [List.find?_cons, h a (List.mem_cons_self _ _)]
    rw [ih (fun b hb => h b (List.mem_cons_of_mem _ hb))]

/-- On a request line made of a method of the table, a space, a path, a space and a
version, the route chain selects the entry of the table. -/
theorem route_eq_table_lookup (M P V : List Char)
    (hM : M ∈ ["GET".toList, "POST".toList, "DELETE".toList])
    (hP : ' ' ∉ P) (hV : ' ' ∉ V) :
    route (M ++ ' ' :: (P ++ ' ' :: V)) = table_lookup M P := by
  rw [route_eq_find]
  unfold table_lookup
  congr 1
  apply find_congr
  intro r hr
  obtain ⟨m, path, hm, hpath, hpat⟩ := table_shape r hr
  have hmsp := method_no_space m hm
  have hMsp := method_no_space M hM
  rw [Bool.eq_iff_iff, strstr_isSome_iff, beq_iff_eq, hpat,
    pattern_found_iff m path M P V hmsp hpath hMsp hP hV]
  constructor
  · rintro ⟨h1, h2⟩
    rw [method_suffix_eq m hm M hM h1, h2]
    simp
  · intro h
    have h' : m ++ ' ' :: (path ++ [' ']) = M ++ ' ' :: (P ++ [' ']) := by
      rw [h]; simp
    obtain ⟨h1, h2⟩ := split_at_space _ _ _ _ hmsp hMsp h'
    exact ⟨h1 ▸ List.suffix_refl m, List.append_cancel_right h2⟩

theorem table_lookup_bad_iff (M P : List Char) :
    table_lookup M P = .bad_request ↔
      ∀ r ∈ Route.table, r.pattern ≠ M ++ " ".toList ++ P ++ " ".toList := by
  unfold table_lookup
  cases hf : Route.table.find? (fun r => r.pattern == M ++ " ".toList ++ P ++ " ".toList) with
  | none =>
    simp only [Option.getD_none, true_iff]
    intro r hr heq
    have := List.find?_eq_none.mp hf r hr
    exact this (by simpa using heq)
  | some r =>
    have hp := List.find?_some hf
    have hm := List.mem_of_find?_eq_some hf
    simp only [Option.getD_some]
    constructor
    · intro hb
      rw [hb] at hm
      exact absurd hm (by decide)
    · intro hall
      exact absurd (by simpa using hp) (hall r hm)

theorem head_ne_400 (hd : List Char) (body : List (List Char)) (h : hd ≠ http_400_hdr) :
    (hd :: body).head? ≠ some http_400_hdr := by
  simpa using h

/-- Apart from the final `else` and POST /connect.json, no branch of the chain begins its
answer with the 400 header. -/
theorem handler_head_not_400 (fuel : Nat) (cfg : Config) (env : Env) (rest : List Char)
    (r : Route) (t : List Event) (h : handler fuel cfg env rest r = some t)
    (h1 : r ≠ .bad_request) (h2 : r ≠ .post_connect_json) :
    (writes t).head? ≠ some http_400_hdr := by
  cases r with
  | bad_request => exact absurd rfl h1
  | post_connect_json => exact absurd rfl h2
  | home =>
    simp only [handler, Option.some.injEq] at h; subst h
    exact head_ne_400 _ _ (by decide)
  | jquery_js =>
    simp only [handler, Option.some.injEq] at h; subst h
    exact head_ne_400 _ _ (by decide)
  | code_js =>
    simp only [handler, Option.some.injEq] at h; subst h
    exact head_ne_400 _ _ (by decide)
  | style_css =>
    simp only [handler, Option.some.injEq] at h; subst h
    exact head_ne_400 _ _ (by decide)
  | factory_json =>
    simp only [handler, Option.some.injEq] at h; subst h
    simp [writes]
  | delete_connect_json =>
    simp only [handler, Option.some.injEq] at h; subst h
    exact head_ne_400 _ _ (by decide)
  | ap_json =>
    simp only [handler, Option.some.injEq] at h; subst h
    cases env.lock_json_buffer
    · exact head_ne_400 _ _ (by decide)
    · exact head_ne_400 _ _ (by decide)
  | status_json =>
    simp only [handler] at h
    cases hl : env.lock_json_buffer
    · simp only [hl, Bool.false_eq_true, if_false, Option.some.injEq] at h; subst h
      exact head_ne_400 _ _ (by decide)
    · simp only [hl, if_true] at h
      cases hi : env.ip_info_json with
      | none =>
        simp only [hi, Option.some.injEq] at h; subst h
        exact head_ne_400 _ _ (by decide)
      | some b =>
        simp only [hi, Option.some.injEq] at h; subst h
        exact head_ne_400 _ _ (by decide)
  | get_config_json =>
    simp only [handler] at h
    cases hm : env.malloc_ok
    · simp only [hm, Bool.not_false, if_true, Option.some.injEq] at h; subst h
      exact head_ne_400 _ _ (by decide)
    · simp only [hm, Bool.not_true, Bool.false_eq_true, if_false] at h
      cases hg : get_config_loop cfg env fuel 1 with
      | none => simp [hg] at h
      | some items =>
        simp only [hg, Option.some.injEq] at h; subst h
        exact head_ne_400 _ _ (by decide)
  | post_config_json =>
    simp only [handler] at h
    cases hl : env.lock_json_buffer
    · simp only [hl, Bool.false_eq_true, if_false, Option.some.injEq] at h; subst h
      exact head_ne_400 _ _ (by decide)
    · simp only [hl, if_true] at h
      cases hg : post_config_loop cfg rest fuel 1 with
      | none => simp [hg] at h
      | some saves =>
        simp only [hg, Option.some.injEq] at h; subst h
        have hw : writes ([Event.lock_json_buffer true] ++ post_config_flag rest ++ saves ++
            [Event.netconn_write http_ok_json_no_cache_hdr]) = [http_ok_json_no_cache_hdr] := by
          simp [writes_append, writes, post_config_flag_writes,
            post_config_loop_writes cfg rest fuel 1 saves hg]
        rw [hw]
        exact head_ne_400 http_ok_json_no_cache_hdr [] (by decide)

/-- The route chain takes the first entry of the table whose pattern occurs in the
line. -/
theorem route_eq_iff_first (line : List Char) (r : Route) (hr : r ≠ .bad_request) :
    route line = r ↔
      ∃ before after, Route.table = before ++ r :: after ∧
        r.pattern <:+: line ∧ ∀ r' ∈ before, ¬ r'.pattern <:+: line := by
  rw [route_eq_find]
  constructor
  · intro h
    cases hf : Route.table.find? (fun r => (strstr line r.pattern).isSome) with
    | none => rw [hf] at h; exact absurd h.symm hr
    | some r' =>
      rw [hf] at h
      simp only [Option.getD_some] at h
      subst h
      obtain ⟨hp, before, after, htab, hbefore⟩ := List.find?_eq_some.mp hf
      refine ⟨before, after, htab, (strstr_isSome_iff _ _).mp hp, ?_⟩
      intro r'' hmem hin
      have := hbefore r'' hmem
      rw [(strstr_isSome_iff _ _).mpr hin] at this
      cases this
  · rintro ⟨before, after, htab, hin, hbefore⟩
    have : Route.table.find? (fun r => (strstr line r.pattern).isSome) = some r := by
      rw [List.find?_eq_some]
      refine ⟨(strstr_isSome_iff _ _).mpr hin, before, after, htab, ?_⟩
      intro r' hmem
      have hn : (strstr line r'.pattern).isSome ≠ true :=
        fun h => hbefore r' hmem ((strstr_isSome_iff _ _).mp h)
      simpa using hn
    rw [this]; rfl

/-! ## The specification, claim by claim -/

/-- Claim C1.  When `name` does not occur in `request` the extractor returns NULL and
length 0.  When it occurs, `request` splits as `pre ++ name ++ post` at the first
occurrence of `name`, the extractor returns `post`, and the length it returns is the
number of characters of `post` before the first carriage return, line feed or end of
string: the span holds neither character and is followed by one of them or by nothing. -/
theorem http_server_get_header_spec (request name : List Char) :
    (¬ name <:+: request → http_server_get_header request name = (none, 0)) ∧
    (name <:+: request →
      ∃ pre post len, request = pre ++ name ++ post ∧
        (∀ k, k < pre.length → ¬ name <+: request.drop k) ∧
        http_server_get_header request name = (some post, len) ∧
        len ≤ post.length ∧
        (∀ c ∈ post.take len, c ≠ '\r' ∧ c ≠ '\n') ∧
        (∀ c, (post.drop len).head? = some c → c = '\r' ∨ c = '\n')) := by
  constructor
  · intro h
    exact get_header_of_not_strstr _ _ ((strstr_none_iff _ _).mpr h)
  · intro h
    cases hs : strstr request name with
    | none => exact absurd h ((strstr_none_iff _ _).mp hs)
    | some p =>
      obtain ⟨pre, h1, ⟨post, h2⟩, h3⟩ := strstr_some _ _ _ hs
      have hd : p.drop name.length = post := by rw [← h2]; simp
      refine ⟨pre, post, (post.takeWhile (fun c => c != '\n' && c != '\r')).length,
        ?_, h3, ?_, ?_, ?_, ?_⟩
      · rw [h1, ← h2, List.append_assoc]
      · rw [get_header_of_strstr _ _ _ hs, hd]
      · exact (List.takeWhile_prefix _).length_le
      · intro c hc
        rw [take_length_takeWhile] at hc
        have := List.mem_takeWhile_imp hc
        simpa [and_comm] using this
      · intro c hc
        rw [drop_length_takeWhile] at hc
        have := head_dropWhile _ _ _ hc
        simp only [Bool.and_eq_false_iff, bne_eq_false_iff_eq] at this
        tauto

/-- Claim C1 at a request in which the name occurs twice, and at one without it. -/
theorem http_server_get_header_spec_witness :
    (¬ "Zzz: ".toList <:+: "Host: a".toList ∧
      http_server_get_header "Host: a".toList "Zzz: ".toList = (none, 0)) ∧
    ("Host: ".toList <:+: "A: 1\r\nHost: a.b\r\nHost: c".toList ∧
      ∃ pre post len, "A: 1\r\nHost: a.b\r\nHost: c".toList = pre ++ "Host: ".toList ++ post ∧
        (∀ k, k < pre.length →
          ¬ "Host: ".toList <+: ("A: 1\r\nHost: a.b\r\nHost: c".toList).drop k) ∧
        http_server_get_header "A: 1\r\nHost: a.b\r\nHost: c".toList "Host: ".toList
          = (some post, len) ∧
        len ≤ post.length ∧
        (∀ c ∈ post.take len, c ≠ '\r' ∧ c ≠ '\n') ∧
        (∀ c, (post.drop len).head? = some c → c = '\r' ∨ c = '\n')) :=
  ⟨⟨by decide, (http_server_get_header_spec _ _).1 (by decide)⟩,
   ⟨by decide, (http_server_get_header_spec _ _).2 (by decide)⟩⟩

/-- Claim C2, refuted as stated: a request with a Host header of empty value, in which
neither the portal address nor the station address occurs, is not redirected but served
the home page. -/
theorem empty_host_not_redirected :
    strtok_r "GET / HTTP/1.1\r\nHost: \r\n\r\n".toList new_line
      = some ("GET / HTTP/1.1\r".toList, "Host: \r\n\r\n".toList) ∧
    http_server_get_header "Host: \r\n\r\n".toList "Host: ".toList
      = (some "\r\n\r\n".toList, 0) ∧
    ¬ example_cfg.DEFAULT_AP_IP <:+: "\r\n\r\n".toList ∧
    ¬ example_env.sta_ip_string <:+: "\r\n\r\n".toList ∧
    http_server_netconn_serve 0 example_cfg example_env
        "GET / HTTP/1.1\r\nHost: \r\n\r\n".toList
      = some [.lock_sta_ip_string, .unlock_sta_ip_string,
              .netconn_write http_html_hdr, .netconn_write example_cfg.index_html] := by
  refine ⟨by decide, by decide, by decide, by decide, by decide⟩

/-- Claim C2, as amended.  A request with a request line whose Host value is not empty,
and such that neither the portal address nor the station address occurs in the request
from the start of the Host value on, is answered by the three writes of the 302
redirect and nothing else. -/
theorem redirect_of_foreign_host (fuel : Nat) (cfg : Config) (env : Env)
    (buf line rest host : List Char) (lenH : Nat)
    (hline : strtok_r buf new_line = some (line, rest))
    (hhost : http_server_get_header rest "Host: ".toList = (some host, lenH))
    (hlen : 0 < lenH)
    (hap : ¬ cfg.DEFAULT_AP_IP <:+: host)
    (hsta : ¬ env.sta_ip_string <:+: host) :
    http_server_netconn_serve fuel cfg env buf =
      some [.lock_sta_ip_string, .unlock_sta_ip_string,
            .netconn_write "HTTP/1.1 302 Found\nLocation: http://".toList,
            .netconn_write cfg.DEFAULT_AP_IP,
            .netconn_write "/\n\n".toList] := by
  have h1 : found (some host) cfg.DEFAULT_AP_IP = false := by
    rw [Bool.eq_false_iff]; exact fun h => hap ((found_some_iff _ _).mp h)
  have h2 : found (some host) env.sta_ip_string = false := by
    rw [Bool.eq_false_iff]; exact fun h => hsta ((found_some_iff _ _).mp h)
  have hr : is_redirect cfg env rest = true := by
    rw [is_redirect_eq cfg env rest _ _ hhost, h1, h2]
    simp [hlen]
  exact serve_redirect fuel cfg env buf line rest hline hr

/-- Claim C2 as amended, at a probe for a foreign host. -/
theorem redirect_of_foreign_host_witness :
    http_server_netconn_serve 0 example_cfg example_env
        "GET /generate_204 HTTP/1.1\r\nHost: example.com\r\n\r\n".toList =
      some [.lock_sta_ip_string, .unlock_sta_ip_string,
            .netconn_write "HTTP/1.1 302 Found\nLocation: http://".toList,
            .netconn_write "10.10.0.1".toList,
            .netconn_write "/\n\n".toList] :=
  redirect_of_foreign_host 0 example_cfg example_env
    "GET /generate_204 HTTP/1.1\r\nHost: example.com\r\n\r\n".toList
    "GET /generate_204 HTTP/1.1\r".toList "Host: example.com\r\n\r\n".toList
    "example.com\r\n\r\n".toList 11 (by decide) (by decide) (by decide) (by decide) (by decide)

/-- Claim C3.  A request with a request line whose Host value equals the portal address
is never redirected, whatever the station address: the run is the run of the branch the
route chain selects, the first thing it writes is not the 302 header, and no write at
all is the 302 header when no text from outside is a status header. -/
theorem direct_of_portal_host (fuel : Nat) (cfg : Config) (env : Env)
    (buf line rest host : List Char) (lenH : Nat)
    (hline : strtok_r buf new_line = some (line, rest))
    (hhost : http_server_get_header rest "Host: ".toList = (some host, lenH))
    (hval : host.take lenH = cfg.DEFAULT_AP_IP) :
    is_redirect cfg env rest = false ∧
    http_server_netconn_serve fuel cfg env buf =
      (handler fuel cfg env rest (route line)).map
        (fun t => .lock_sta_ip_string :: .unlock_sta_ip_string :: t) ∧
    ∀ tr, http_server_netconn_serve fuel cfg env buf = some tr →
      (writes tr).head? ≠ some http_redirect_hdr_start ∧
      (payload_clean cfg env → http_redirect_hdr_start ∉ writes tr) := by
  have hin : cfg.DEFAULT_AP_IP <:+: host := by
    rw [← hval]; exact (List.take_prefix _ _).isInfix
  have hr : is_redirect cfg env rest = false := by
    rw [is_redirect_eq cfg env rest _ _ hhost, (found_some_iff _ _).mpr hin]
    simp
  refine ⟨hr, serve_direct fuel cfg env buf line rest hline hr, ?_⟩
  intro tr htr
  rcases serve_direct_writes fuel cfg env buf line rest tr hline hr htr with
    ⟨_, hw⟩ | ⟨_, hd, body, hw, hhd, hbody⟩
  · rw [hw]; simp
  · rw [hw]
    refine ⟨?_, ?_⟩
    · simpa using not_302_of_direct hd hhd
    · intro hclean hmem
      rcases List.mem_cons.mp hmem with h | h
      · exact not_302_of_direct hd hhd h.symm
      · rcases hbody _ h with hp | hn
        · exact hclean _ hp (by decide)
        · exact hn (by decide)

/-- Claim C3 at a request for the AP list addressed to the portal, the station address
being the portal address too. -/
theorem direct_of_portal_host_witness :
    is_redirect example_cfg { example_env with sta_ip_string := "10.10.0.1".toList }
      "Host: 10.10.0.1\r\n\r\n".toList = false ∧
    http_server_netconn_serve 0 example_cfg
        { example_env with sta_ip_string := "10.10.0.1".toList }
        "GET /ap.json HTTP/1.1\r\nHost: 10.10.0.1\r\n\r\n".toList =
      (handler 0 example_cfg { example_env with sta_ip_string := "10.10.0.1".toList }
        "Host: 10.10.0.1\r\n\r\n".toList (route "GET /ap.json HTTP/1.1\r".toList)).map
        (fun t => .lock_sta_ip_string :: .unlock_sta_ip_string :: t) ∧
    ∀ tr, http_server_netconn_serve 0 example_cfg
        { example_env with sta_ip_string := "10.10.0.1".toList }
        "GET /ap.json HTTP/1.1\r\nHost: 10.10.0.1\r\n\r\n".toList = some tr →
      (writes tr).head? ≠ some http_redirect_hdr_start ∧
      (payload_clean example_cfg { example_env with sta_ip_string := "10.10.0.1".toList } →
        http_redirect_hdr_start ∉ writes tr) :=
  direct_of_portal_host 0 example_cfg { example_env with sta_ip_string := "10.10.0.1".toList }
    "GET /ap.json HTTP/1.1\r\nHost: 10.10.0.1\r\n\r\n".toList
    "GET /ap.json HTTP/1.1\r".toList "Host: 10.10.0.1\r\n\r\n".toList
    "10.10.0.1\r\n\r\n".toList 9 (by decide) (by decide) (by decide)

/-- Claim C4, refuted as stated: the run on a POST /factory.json request calls
`guided_factory` and writes nothing, so no status header at all. -/
theorem factory_writes_nothing :
    http_server_netconn_serve 0 example_cfg example_env
        "POST /factory.json HTTP/1.1\r\nHost: 10.10.0.1\r\n\r\n".toList
      = some [.lock_sta_ip_string, .unlock_sta_ip_string, .guided_factory] ∧
    writes [.lock_sta_ip_string, .unlock_sta_ip_string, .guided_factory] = [] ∧
    status_count [.lock_sta_ip_string, .unlock_sta_ip_string, .guided_factory] = 0 := by
  refine ⟨by decide, by decide, by decide⟩

/-- Claim C4, as amended.  When no text from outside is a status header, a run that
returns has written exactly one status header, on every branch and lock or allocation
outcome, except on the POST /factory.json branch: there the run is the lock and unlock
of the station address and the call of `guided_factory`, and nothing is written.  And
the run does return when some index is missing from the command store and some indexed
header is missing from the request. -/
theorem one_response_unless_factory (cfg : Config) (env : Env) (buf : List Char)
    (hclean : payload_clean cfg env) :
    (∀ fuel tr, http_server_netconn_serve fuel cfg env buf = some tr →
      (takes_route cfg env buf .factory_json = true →
        tr = [.lock_sta_ip_string, .unlock_sta_ip_string, .guided_factory] ∧
        writes tr = [] ∧ status_count tr = 0) ∧
      (takes_route cfg env buf .factory_json = false → status_count tr = 1)) ∧
    (∀ k₁ k₂, env.alloc_get_config (get_autoexec_name (1 + k₁)) = none →
      ¬ post_autoexec_name (1 + k₂) <:+: buf →
      ∃ tr, http_server_netconn_serve (max k₁ k₂ + 1) cfg env buf = some tr) := by
  constructor
  · intro fuel tr htr
    cases hline : strtok_r buf new_line with
    | none =>
      simp only [takes_route, hline]
      simp only [http_server_netconn_serve, hline, Option.some.injEq] at htr
      subst htr
      exact ⟨by simp, fun _ => by decide⟩
    | some lr =>
      obtain ⟨line, rest⟩ := lr
      cases hr : is_redirect cfg env rest with
      | true =>
        rw [serve_redirect fuel cfg env buf line rest hline hr] at htr
        simp only [Option.some.injEq] at htr
        subst htr
        simp only [takes_route, hline, hr]
        refine ⟨by simp, fun _ => ?_⟩
        refine status_count_one http_redirect_hdr_start
          [cfg.DEFAULT_AP_IP, http_redirect_hdr_end] _ rfl (by decide) ?_
        intro b hb
        simp only [List.mem_cons, List.mem_singleton, List.not_mem_nil, or_false] at hb
        rcases hb with hb | hb
        · subst hb; exact hclean _ (by simp [payloads])
        · subst hb; decide
      | false =>
        simp only [takes_route, hline, hr, Bool.not_false, Bool.true_and, decide_eq_true_eq,
          decide_eq_false_iff_not]
        rcases serve_direct_writes fuel cfg env buf line rest tr hline hr htr with
          ⟨hf, hw⟩ | ⟨hf, hd, body, hw, hhd, hbody⟩
        · refine ⟨fun _ => ?_, fun h => absurd hf h⟩
          have hrun := serve_of_handler fuel cfg env buf line rest [.guided_factory]
            hline hr (by rw [hf]; rfl)
          rw [hrun, Option.some.injEq] at htr
          subst htr
          exact ⟨rfl, rfl, rfl⟩
        · refine ⟨fun h => absurd h hf, fun _ => ?_⟩
          refine status_count_one hd body tr hw (direct_sub_status hd hhd) ?_
          intro b hb
          rcases hbody b hb with hp | hn
          · exact hclean b hp
          · exact hn
  · intro k₁ k₂ h₁ h₂
    cases hline : strtok_r buf new_line with
    | none => exact ⟨[.netconn_write http_404_hdr], by simp [http_server_netconn_serve, hline]⟩
    | some lr =>
      obtain ⟨line, rest⟩ := lr
      cases hr : is_redirect cfg env rest with
      | true => exact ⟨_, serve_redirect _ cfg env buf line rest hline hr⟩
      | false =>
        have hsuf := strtok_r_suffix buf new_line line rest hline
        have h₂' : (http_server_get_header rest (post_autoexec_name (1 + k₂))).1 = none :=
          get_header_none_of_not_found _ _ (fun h => h₂ (h.trans hsuf.isInfix))
        obtain ⟨t, ht⟩ := handler_terminates cfg env rest (route line) k₁ k₂
          (max k₁ k₂ + 1) h₁ h₂' (by omega) (by omega)
        rw [serve_direct _ cfg env buf line rest hline hr, ht]
        exact ⟨_, rfl⟩

/-- Claim C4 as amended, at a GET /config.json request on an empty command store and at
a POST /factory.json request. -/
theorem one_response_unless_factory_witness :
    payload_clean example_cfg example_env ∧
    status_count [.lock_sta_ip_string, .unlock_sta_ip_string,
      .netconn_write http_ok_json_no_cache_hdr,
      .netconn_write "\x7b \"autoexec\": 0, \"list\": [".toList,
      .netconn_write "]\x7d".toList] = 1 ∧
    ∀ tr, http_server_netconn_serve 0 example_cfg example_env
        "POST /factory.json HTTP/1.1\r\nHost: 10.10.0.1\r\n\r\n".toList = some tr →
      tr = [.lock_sta_ip_string, .unlock_sta_ip_string, .guided_factory] ∧
      writes tr = [] ∧ status_count tr = 0 :=
  ⟨by unfold payload_clean; decide,
   ((one_response_unless_factory example_cfg example_env
      "GET /config.json HTTP/1.1\r\nHost: 10.10.0.1\r\n\r\n".toList
      (by unfold payload_clean; decide)).1
      1 _ (by decide)).2 (by decide),
   fun tr htr =>
    ((one_response_unless_factory example_cfg example_env
      "POST /factory.json HTTP/1.1\r\nHost: 10.10.0.1\r\n\r\n".toList
      (by unfold payload_clean; decide)).1 0 tr htr).1 (by decide)⟩

/-- Claim C5, refuted as stated: two request lines that do not begin with any of the
eleven patterns are served the home page and the AP list, not the 400 response. -/
theorem route_not_by_line_start :
    (∀ r ∈ Route.table, ¬ r.pattern <+: "XGET / HTTP/1.1\r".toList) ∧
    http_server_netconn_serve 0 example_cfg example_env "XGET / HTTP/1.1\r\n\r\n".toList
      = some [.lock_sta_ip_string, .unlock_sta_ip_string,
              .netconn_write http_html_hdr, .netconn_write example_cfg.index_html] ∧
    (∀ r ∈ Route.table, ¬ r.pattern <+: "PUT /x?GET /ap.json HTTP/1.1\r".toList) ∧
    http_server_netconn_serve 0 example_cfg example_env
        "PUT /x?GET /ap.json HTTP/1.1\r\n\r\n".toList
      = some [.lock_sta_ip_string, .unlock_sta_ip_string, .lock_json_buffer true,
              .netconn_write http_ok_json_no_cache_hdr,
              .netconn_write example_env.ap_list_json, .unlock_json_buffer,
              .scan_async] := by
  refine ⟨by decide, by decide, by decide, by decide⟩

/-- Claim C5, as amended.  On a run that is not redirected the branch taken is the one
the route chain selects.  The chain tries the eleven patterns in its order and takes the
first that occurs somewhere in the request line: a branch other than the final `else`
is selected exactly when its pattern occurs in the line and none of the patterns before
it in the chain does.  A request line in which none of the eleven patterns occurs, and
no other, selects the final `else` and gets the 400 response. -/
theorem route_by_substring (fuel : Nat) (cfg : Config) (env : Env)
    (buf line rest : List Char)
    (hline : strtok_r buf new_line = some (line, rest))
    (hdirect : is_redirect cfg env rest = false) :
    http_server_netconn_serve fuel cfg env buf =
      (handler fuel cfg env rest (route line)).map
        (fun t => .lock_sta_ip_string :: .unlock_sta_ip_string :: t) ∧
    (∀ r, r ≠ .bad_request →
      (route line = r ↔
        ∃ before after,
          [Route.home, .jquery_js, .code_js, .ap_json, .style_css, .status_json,
           .get_config_json, .factory_json, .post_config_json, .delete_connect_json,
           .post_connect_json] = before ++ r :: after ∧
          r.pattern <:+: line ∧ ∀ r' ∈ before, ¬ r'.pattern <:+: line)) ∧
    (route line = .bad_request ↔ ∀ r ∈ Route.table, ¬ r.pattern <:+: line) ∧
    ((∀ r ∈ Route.table, ¬ r.pattern <:+: line) →
      http_server_netconn_serve fuel cfg env buf =
        some [.lock_sta_ip_string, .unlock_sta_ip_string, .netconn_write http_400_hdr]) := by
  refine ⟨serve_direct fuel cfg env buf line rest hline hdirect, ?_, route_bad_iff line, ?_⟩
  · intro r hr
    exact route_eq_iff_first line r hr
  · intro hnone
    have hb := (route_bad_iff line).mpr hnone
    refine serve_of_handler fuel cfg env buf line rest _ hline hdirect ?_
    rw [hb]; rfl

/-- Claim C5 as amended, at a request line with a pattern after its start, and at a
request line in which the AP-list pattern occurs before the home-page pattern: the home
page, first in the chain, is selected. -/
theorem route_by_substring_witness :
    (route "XGET / HTTP/1.1\r".toList = .home ∧
      Route.home.pattern <:+: "XGET / HTTP/1.1\r".toList) ∧
    route "GET /ap.json GET / HTTP/1.1\r".toList = .home :=
  ⟨⟨by decide,
    (((route_by_substring 0 example_cfg example_env "XGET / HTTP/1.1\r\n\r\n".toList
      "XGET / HTTP/1.1\r".toList "\r\n".toList (by decide) (by decide)).2.1
      .home (by decide)).mp (by decide)).choose_spec.choose_spec.2.1⟩,
   ((route_by_substring 0 example_cfg example_env
      "GET /ap.json GET / HTTP/1.1\r\n\r\n".toList
      "GET /ap.json GET / HTTP/1.1\r".toList "\r\n".toList (by decide) (by decide)).2.1
      .home (by decide)).mpr ⟨[], _, rfl, by decide, by simp⟩⟩

/-- Claim C6.  On a run that is not redirected, a request line in which none of the
eleven patterns occurs is answered by the 400 header alone: besides the lock and unlock
of the station address the run does nothing else. -/
theorem bad_request_of_no_pattern (fuel : Nat) (cfg : Config) (env : Env)
    (buf line rest : List Char)
    (hline : strtok_r buf new_line = some (line, rest))
    (hdirect : is_redirect cfg env rest = false)
    (hnone : ∀ r ∈ Route.table, ¬ r.pattern <:+: line) :
    http_server_netconn_serve fuel cfg env buf =
      some [.lock_sta_ip_string, .unlock_sta_ip_string,
            .netconn_write "HTTP/1.1 400 Bad Request\nContent-Length: 0\n\n".toList] := by
  have hb := (route_bad_iff line).mpr hnone
  refine serve_of_handler fuel cfg env buf line rest _ hline hdirect ?_
  rw [hb]; rfl

/-- Claim C6 at a PUT request. -/
theorem bad_request_of_no_pattern_witness :
    http_server_netconn_serve 0 example_cfg example_env
        "PUT /connect.json HTTP/1.1\r\nHost: 10.10.0.1\r\n\r\n".toList =
      some [.lock_sta_ip_string, .unlock_sta_ip_string,
            .netconn_write "HTTP/1.1 400 Bad Request\nContent-Length: 0\n\n".toList] :=
  bad_request_of_no_pattern 0 example_cfg example_env
    "PUT /connect.json HTTP/1.1\r\nHost: 10.10.0.1\r\n\r\n".toList
    "PUT /connect.json HTTP/1.1\r".toList "Host: 10.10.0.1\r\n\r\n".toList
    (by decide) (by decide) (by decide)

/-- Claim C7.  A buffer that is empty or made of line feeds only has no request line and
is answered by the 404 header alone.  A buffer with any other character has a request
line, and then the first thing written is not the 404 header, the writes are not the
404 header alone, and no write at all is the 404 header when no text from outside is a
status header. -/
theorem not_found_iff_no_request_line (fuel : Nat) (cfg : Config) (env : Env)
    (buf : List Char) :
    ((∀ c ∈ buf, c = '\n') →
      strtok_r buf new_line = none ∧
      http_server_netconn_serve fuel cfg env buf = some [.netconn_write http_404_hdr]) ∧
    ((∃ c ∈ buf, c ≠ '\n') →
      (∃ line rest, strtok_r buf new_line = some (line, rest)) ∧
      ∀ tr, http_server_netconn_serve fuel cfg env buf = some tr →
        (writes tr).head? ≠ some http_404_hdr ∧ writes tr ≠ [http_404_hdr] ∧
        (payload_clean cfg env → http_404_hdr ∉ writes tr)) := by
  constructor
  · intro h
    have hn := (strtok_r_none_iff buf).mpr h
    exact ⟨hn, by simp [http_server_netconn_serve, hn]⟩
  · intro h
    cases hline : strtok_r buf new_line with
    | none =>
      obtain ⟨c, hc, hne⟩ := h
      exact absurd ((strtok_r_none_iff buf).mp hline c hc) hne
    | some lr =>
      obtain ⟨line, rest⟩ := lr
      refine ⟨⟨line, rest, rfl⟩, ?_⟩
      intro tr htr
      have key : (writes tr).head? ≠ some http_404_hdr ∧
          (payload_clean cfg env → http_404_hdr ∉ writes tr) := by
        cases hr : is_redirect cfg env rest with
        | true =>
          rw [serve_redirect fuel cfg env buf line rest hline hr] at htr
          simp only [Option.some.injEq] at htr
          subst htr
          refine ⟨?_, ?_⟩
          · simp only [writes, List.head?_cons, ne_eq, Option.some.injEq]
            decide
          intro hclean hmem
          simp only [writes, List.mem_cons, List.mem_singleton, List.not_mem_nil,
            or_false] at hmem
          rcases hmem with hm | hm | hm
          · revert hm; decide
          · exact hclean cfg.DEFAULT_AP_IP (by simp [payloads]) (by rw [← hm]; decide)
          · revert hm; decide
        | false =>
          rcases serve_direct_writes fuel cfg env buf line rest tr hline hr htr with
            ⟨_, hw⟩ | ⟨_, hd, body, hw, hhd, hbody⟩
          · rw [hw]; simp
          · rw [hw]
            refine ⟨by simpa using not_404_of_direct hd hhd, ?_⟩
            intro hclean hmem
            rcases List.mem_cons.mp hmem with h | h
            · exact not_404_of_direct hd hhd h.symm
            · rcases hbody _ h with hp | hn
              · exact hclean _ hp (by decide)
              · exact hn (by decide)
      refine ⟨key.1, ?_, key.2⟩
      intro heq
      apply key.1
      rw [heq]; rfl

/-- Claim C7 at a buffer of two line feeds and at a buffer with a request line. -/
theorem not_found_iff_no_request_line_witness :
    ((∀ c ∈ "\n\n".toList, c = '\n') ∧
      strtok_r "\n\n".toList new_line = none ∧
      http_server_netconn_serve 0 example_cfg example_env "\n\n".toList
        = some [.netconn_write http_404_hdr]) ∧
    ((∃ c ∈ "\nGET /nothing\n".toList, c ≠ '\n') ∧
      (∃ line rest, strtok_r "\nGET /nothing\n".toList new_line = some (line, rest)) ∧
      ∀ tr, http_server_netconn_serve 0 example_cfg example_env "\nGET /nothing\n".toList
          = some tr →
        (writes tr).head? ≠ some http_404_hdr ∧ writes tr ≠ [http_404_hdr] ∧
        (payload_clean example_cfg example_env → http_404_hdr ∉ writes tr)) :=
  ⟨⟨by decide,
    (not_found_iff_no_request_line 0 example_cfg example_env "\n\n".toList).1 (by decide)⟩,
   ⟨by decide,
    (not_found_iff_no_request_line 0 example_cfg example_env "\nGET /nothing\n".toList).2
      (by decide)⟩⟩

/-- Claim C8, refuted as stated: a POST /connect.json request whose X-Custom-ssid header
is present with an empty value (extracted length 0) and whose password is in bounds is
answered 200, after the station configuration is overwritten and the connection
requested. -/
theorem empty_ssid_accepted :
    http_server_get_header "X-Custom-ssid: \r\nX-Custom-pwd: secret\r\n\r\n".toList
        "X-Custom-ssid: ".toList
      = (some "\r\nX-Custom-pwd: secret\r\n\r\n".toList, 0) ∧
    http_server_netconn_serve 0 example_cfg example_env
        "POST /connect.json HTTP/1.1\r\nX-Custom-ssid: \r\nX-Custom-pwd: secret\r\n\r\n".toList
      = some [.lock_sta_ip_string, .unlock_sta_ip_string,
              .set_wifi_sta_config [] "secret".toList, .connect_async,
              .netconn_write http_ok_json_no_cache_hdr] := by
  refine ⟨by decide, by decide⟩

/-- Claim C8, as amended.  On a run that is not redirected and takes the POST
/connect.json branch, if the X-Custom-ssid header does not occur in the request or the
extracted X-Custom-pwd value is longer than `MAX_PASSWORD_SIZE`, the run writes the 400
header and does nothing else: no connection is requested and the station configuration
is left alone. -/
theorem connect_rejected (fuel : Nat) (cfg : Config) (env : Env)
    (buf line rest : List Char)
    (hline : strtok_r buf new_line = some (line, rest))
    (hdirect : is_redirect cfg env rest = false)
    (hroute : route line = .post_connect_json)
    (hbad : ¬ "X-Custom-ssid: ".toList <:+: rest ∨
      cfg.MAX_PASSWORD_SIZE < (http_server_get_header rest "X-Custom-pwd: ".toList).2) :
    http_server_netconn_serve fuel cfg env buf =
      some [.lock_sta_ip_string, .unlock_sta_ip_string, .netconn_write http_400_hdr] := by
  refine serve_of_handler fuel cfg env buf line rest _ hline hdirect ?_
  rw [hroute]
  simp only [handler]
  rcases hbad with hbad | hbad
  · rw [get_header_of_not_strstr _ _ ((strstr_none_iff _ _).mpr hbad)]
  · split
    · rename_i ssid lenS password lenP h1 h2
      rw [h2] at hbad
      simp only at hbad
      rw [if_neg (by omega)]
    · rfl

/-- Claim C8 as amended, at a request without the X-Custom-ssid header. -/
theorem connect_rejected_witness :
    http_server_netconn_serve 0 example_cfg example_env
        "POST /connect.json HTTP/1.1\r\nX-Custom-pwd: secret\r\n\r\n".toList =
      some [.lock_sta_ip_string, .unlock_sta_ip_string, .netconn_write http_400_hdr] :=
  connect_rejected 0 example_cfg example_env
    "POST /connect.json HTTP/1.1\r\nX-Custom-pwd: secret\r\n\r\n".toList
    "POST /connect.json HTTP/1.1\r".toList "X-Custom-pwd: secret\r\n\r\n".toList
    (by decide) (by decide) (by decide) (Or.inl (by decide))

/-- Claim C9.  On a run that is not redirected and takes the GET /status.json branch:
when the JSON lock is not obtained, and when it is obtained but the IP-info snapshot is
NULL, the run returns and its writes are the 503 header alone, the same bytes in both
cases; when the lock is obtained and the snapshot is `J`, its writes are the 200 JSON
header and then `J`. -/
theorem status_json_response (fuel : Nat) (cfg : Config) (env : Env)
    (buf line rest : List Char)
    (hline : strtok_r buf new_line = some (line, rest))
    (hdirect : is_redirect cfg env rest = false)
    (hroute : route line = .status_json) :
    ((env.lock_json_buffer = false ∨ env.ip_info_json = none) →
      ∃ tr, http_server_netconn_serve fuel cfg env buf = some tr ∧
        writes tr = ["HTTP/1.1 503 Service Unavailable\nContent-Length: 0\n\n".toList]) ∧
    (∀ J, env.lock_json_buffer = true → env.ip_info_json = some J →
      ∃ tr, http_server_netconn_serve fuel cfg env buf = some tr ∧
        writes tr = [http_ok_json_no_cache_hdr, J]) := by
  constructor
  · intro hfail
    cases hl : env.lock_json_buffer with
    | false =>
      refine ⟨_, serve_of_handler fuel cfg env buf line rest
        [.lock_json_buffer false, .netconn_write http_503_hdr] hline hdirect ?_, rfl⟩
      rw [hroute]; simp [handler, hl]
    | true =>
      have hi : env.ip_info_json = none := by
        rcases hfail with h | h
        · rw [hl] at h; cases h
        · exact h
      refine ⟨_, serve_of_handler fuel cfg env buf line rest
        [.lock_json_buffer true, .netconn_write http_503_hdr] hline hdirect ?_, rfl⟩
      rw [hroute]; simp [handler, hl, hi]
  · intro J hl hi
    refine ⟨_, serve_of_handler fuel cfg env buf line rest
      [.lock_json_buffer true, .netconn_write http_ok_json_no_cache_hdr,
       .netconn_write J, .unlock_json_buffer] hline hdirect ?_, rfl⟩
    rw [hroute]; simp [handler, hl, hi]

/-- Claim C9 with the lock busy, with the lock free and no snapshot, and with a
snapshot. -/
theorem status_json_response_witness :
    (∃ tr, http_server_netconn_serve 0 example_cfg
        { example_env with lock_json_buffer := false }
        "GET /status.json HTTP/1.1\r\n\r\n".toList = some tr ∧
      writes tr = ["HTTP/1.1 503 Service Unavailable\nContent-Length: 0\n\n".toList]) ∧
    (∃ tr, http_server_netconn_serve 0 example_cfg example_env
        "GET /status.json HTTP/1.1\r\n\r\n".toList = some tr ∧
      writes tr = ["HTTP/1.1 503 Service Unavailable\nContent-Length: 0\n\n".toList]) ∧
    (∃ tr, http_server_netconn_serve 0 example_cfg
        { example_env with ip_info_json := some "\x7b\"ip\":\"192.168.1.5\"\x7d".toList }
        "GET /status.json HTTP/1.1\r\n\r\n".toList = some tr ∧
      writes tr = [http_ok_json_no_cache_hdr, "\x7b\"ip\":\"192.168.1.5\"\x7d".toList]) :=
  ⟨(status_json_response 0 example_cfg { example_env with lock_json_buffer := false }
      "GET /status.json HTTP/1.1\r\n\r\n".toList "GET /status.json HTTP/1.1\r".toList
      "\r\n".toList (by decide) (by decide) (by decide)).1 (Or.inl rfl),
   (status_json_response 0 example_cfg example_env
      "GET /status.json HTTP/1.1\r\n\r\n".toList "GET /status.json HTTP/1.1\r".toList
      "\r\n".toList (by decide) (by decide) (by decide)).1 (Or.inr rfl),
   (status_json_response 0 example_cfg
      { example_env with ip_info_json := some "\x7b\"ip\":\"192.168.1.5\"\x7d".toList }
      "GET /status.json HTTP/1.1\r\n\r\n".toList "GET /status.json HTTP/1.1\r".toList
      "\r\n".toList (by decide) (by decide) (by decide)).2 _ rfl rfl⟩

/-- Claim C10.  On a run that is not redirected and takes the GET /ap.json branch the
run returns and requests a scan exactly once; with the JSON lock obtained its writes are
the 200 header, which holds `Content-type: application/json`, and then the AP list;
with the lock not obtained its writes are the 503 header alone. -/
theorem ap_json_response (fuel : Nat) (cfg : Config) (env : Env)
    (buf line rest : List Char)
    (hline : strtok_r buf new_line = some (line, rest))
    (hdirect : is_redirect cfg env rest = false)
    (hroute : route line = .ap_json) :
    ∃ tr, http_server_netconn_serve fuel cfg env buf = some tr ∧
      tr.count .scan_async = 1 ∧
      (env.lock_json_buffer = true →
        writes tr = [http_ok_json_no_cache_hdr, env.ap_list_json] ∧
        "Content-type: application/json".toList <:+: http_ok_json_no_cache_hdr) ∧
      (env.lock_json_buffer = false → writes tr = [http_503_hdr]) := by
  cases hl : env.lock_json_buffer with
  | false =>
    refine ⟨_, serve_of_handler fuel cfg env buf line rest
      [.lock_json_buffer false, .netconn_write http_503_hdr, .scan_async]
      hline hdirect ?_, ?_, ?_, ?_⟩
    · rw [hroute]; simp [handler, hl]
    · decide
    · intro h; cases h
    · intro _; rfl
  | true =>
    refine ⟨_, serve_of_handler fuel cfg env buf line rest
      [.lock_json_buffer true, .netconn_write http_ok_json_no_cache_hdr,
       .netconn_write env.ap_list_json, .unlock_json_buffer, .scan_async]
      hline hdirect ?_, ?_, ?_, ?_⟩
    · rw [hroute]; simp [handler, hl]
    · simp [List.count_cons]
    · intro _; exact ⟨rfl, by decide⟩
    · intro h; cases h

/-- Claim C10 at the request of the specification, the AP list being `{"foo":1}`. -/
theorem ap_json_response_witness :
    ∃ tr, http_server_netconn_serve 0 example_cfg example_env
        "GET /ap.json HTTP/1.1\r\nHost: 10.10.0.1\r\n\r\n".toList = some tr ∧
      tr.count .scan_async = 1 ∧
      (example_env.lock_json_buffer = true →
        writes tr = [http_ok_json_no_cache_hdr, "\x7b\"foo\":1\x7d".toList] ∧
        "Content-type: application/json".toList <:+: http_ok_json_no_cache_hdr) ∧
      (example_env.lock_json_buffer = false → writes tr = [http_503_hdr]) :=
  ap_json_response 0 example_cfg example_env
    "GET /ap.json HTTP/1.1\r\nHost: 10.10.0.1\r\n\r\n".toList
    "GET /ap.json HTTP/1.1\r".toList "Host: 10.10.0.1\r\n\r\n".toList
    (by decide) (by decide) (by decide)

/-- Claim C11.  On a run that is not redirected and takes the GET /config.json branch
with the line buffer allocated, if the store holds the commands `vs` under the keys
autoexec1, autoexec2, up to the length `k` of `vs`, and nothing under the next key, then
with more than `k` units of fuel the run returns and its writes are: the 200 header, the
opening line, the `k` lines of the commands in order with one separator between two
neighbours, and the closing text.  Nothing is asked of the store beyond index `k + 1`.
The opening line is the full opening text when the command size is at least 15. -/
theorem config_enumeration (fuel : Nat) (cfg : Config) (env : Env)
    (buf line rest : List Char) (vs : List (List Char))
    (hline : strtok_r buf new_line = some (line, rest))
    (hdirect : is_redirect cfg env rest = false)
    (hroute : route line = .get_config_json)
    (hmalloc : env.malloc_ok = true)
    (hk : vs.length + 1 < 2 ^ 31)
    (hpresent : ∀ j v, vs[j]? = some v →
      env.alloc_get_config ("autoexec".toList ++ fmt_u (1 + j)) = some v)
    (habsent : env.alloc_get_config ("autoexec".toList ++ fmt_u (1 + vs.length)) = none)
    (hfuel : vs.length < fuel) :
    ∃ tr, http_server_netconn_serve fuel cfg env buf = some tr ∧
      writes tr =
        [http_ok_json_no_cache_hdr,
         snprintf (config_buflen cfg - 1) (json_start_fmt (env.flag % 256))] ++
        List.intersperse ",".toList (config_entries cfg 1 vs) ++ ["]\x7d".toList] ∧
      (config_entries cfg 1 vs).length = vs.length ∧
      (15 ≤ cfg.MAX_COMMAND_LINE_SIZE →
        snprintf (config_buflen cfg - 1) (json_start_fmt (env.flag % 256)) =
          "\x7b \"autoexec\": ".toList ++ fmt_u (env.flag % 256) ++ ", \"list\": [".toList) := by
  have hloop := get_config_loop_enumerates cfg env vs 1 fuel
    (by have : (2:Nat) ^ 31 < 10 ^ 11 := by decide
        omega) hpresent habsent hfuel
  refine ⟨_, serve_of_handler fuel cfg env buf line rest
    ([.netconn_write http_ok_json_no_cache_hdr,
      .netconn_write (snprintf (config_buflen cfg - 1) (json_start_fmt (env.flag % 256)))]
      ++ entry_events cfg 1 vs ++ [.netconn_write json_end]) hline hdirect ?_, ?_,
    config_entries_length cfg vs 1, ?_⟩
  · rw [hroute]
    simp [handler, hmalloc, hloop]
  · simp only [writes_direct, writes_append, entry_events_writes]
    rfl
  · intro hmax
    have hl := fmt_u_length (env.flag % 256) 3 (by decide)
      (by have := Nat.mod_lt env.flag (show 0 < 256 by decide)
          omega)
    unfold snprintf json_start_fmt
    apply List.take_of_length_le
    simp only [List.length_append, config_buflen]
    have h1 : "\x7b \"autoexec\": ".toList.length = 14 := rfl
    have h2 : ", \"list\": [".toList.length = 11 := rfl
    have h3 : template.length = 14 := rfl
    omega

/-- Claim C11 on the store with commands at 1 and 2, a gap at 3 and data at 4: two
lines, one separator. -/
theorem config_enumeration_witness :
    ∃ tr, http_server_netconn_serve 3 example_cfg
        { example_env with alloc_get_config := gap_store }
        "GET /config.json HTTP/1.1\r\nHost: 10.10.0.1\r\n\r\n".toList = some tr ∧
      writes tr =
        [http_ok_json_no_cache_hdr, "\x7b \"autoexec\": 0, \"list\": [".toList,
         "\x7b \"autoexec1\": \"join \\\"home\\\"\" \x7d".toList, ",".toList,
         "\x7b \"autoexec2\": \"play\" \x7d".toList, "]\x7d".toList] :=
  let ⟨tr, h1, h2, _⟩ := config_enumeration 3 example_cfg
    { example_env with alloc_get_config := gap_store }
    "GET /config.json HTTP/1.1\r\nHost: 10.10.0.1\r\n\r\n".toList
    "GET /config.json HTTP/1.1\r".toList "Host: 10.10.0.1\r\n\r\n".toList
    ["join \"home\"".toList, "play".toList]
    (by decide) (by decide) (by decide) rfl (by decide)
    (fun j v h => match j, h with
      | 0, h => by cases h; decide
      | 1, h => by cases h; decide
      | _ + 2, h => by simp at h)
    (by decide) (by decide)
  ⟨tr, h1, h2.trans (by decide)⟩

set_option maxRecDepth 100000 in
/-- Claim C12 on a request with the ten commands of the indices 1 to 10.  The name
searched for index 10 is cut to 20 characters and loses its final space, so the value
handed over for key autoexec10 starts with the space and is 7 long, whereas the value
of the header `X-Custom-autoexec10: ` is `reboot`, 6 long.  From index 100 on the name
loses the colon too and the key loses its third digit. -/
theorem post_config_index_ten :
    post_autoexec_name 10 = "X-Custom-autoexec10:".toList ∧
    http_server_get_header ten_headers "X-Custom-autoexec10: ".toList
      = (some "reboot\r\n\r\n".toList, 6) ∧
    (http_server_netconn_serve 11 example_cfg example_env
        ("POST /config.json HTTP/1.1\r\n".toList ++ ten_headers)).map saved
      = some [("autoexec1".toList, "c1".toList, 2), ("autoexec2".toList, "c2".toList, 2),
          ("autoexec3".toList, "c3".toList, 2), ("autoexec4".toList, "c4".toList, 2),
          ("autoexec5".toList, "c5".toList, 2), ("autoexec6".toList, "c6".toList, 2),
          ("autoexec7".toList, "c7".toList, 2), ("autoexec8".toList, "c8".toList, 2),
          ("autoexec9".toList, "c9".toList, 2),
          ("autoexec10".toList, " reboot".toList, 7)] ∧
    post_autoexec_name 100 = "X-Custom-autoexec100".toList ∧
    post_autoexec_key 100 = "autoexec10".toList := by
  refine ⟨by decide, by decide, by decide, by decide, by decide⟩

set_option maxRecDepth 100000 in
/-- Claim C13 on a store whose command at index 1 has 255 characters and no quote, with
`MAX_COMMAND_LINE_SIZE` 256.  The full item has 274 characters; the line written has
269: it stops after 253 characters of the command, without the closing quote and
brace.  Whatever the configuration, index and command, the line written has at most
`MAX_COMMAND_LINE_SIZE + 13` characters. -/
theorem config_item_cut :
    (http_server_netconn_serve 2 example_cfg
        { example_env with alloc_get_config := long_store }
        "GET /config.json HTTP/1.1\r\n\r\n".toList).map writes
      = some [http_ok_json_no_cache_hdr, "\x7b \"autoexec\": 0, \"list\": [".toList,
          "\x7b \"autoexec1\": \"".toList ++ List.replicate 253 'a', "]\x7d".toList] ∧
    (List.replicate 255 'a').length < example_cfg.MAX_COMMAND_LINE_SIZE ∧
    template_fmt "autoexec1".toList (json_escape (List.replicate 255 'a'))
      = "\x7b \"autoexec1\": \"".toList ++ List.replicate 255 'a' ++ "\" \x7d".toList ∧
    ("\x7b \"autoexec1\": \"".toList ++ List.replicate 253 'a').length = 269 ∧
    ("\x7b \"autoexec1\": \"".toList ++ List.replicate 255 'a' ++ "\" \x7d".toList).length
      = 274 ∧
    ∀ (cfg : Config) (i : Nat) (v : List Char),
      (config_entry cfg i v).length ≤ cfg.MAX_COMMAND_LINE_SIZE + 13 := by
  refine ⟨by decide, by decide, by decide, by decide, by decide, ?_⟩
  intro cfg i v
  have h : template.length = 14 := rfl
  simp only [config_entry, snprintf, config_buflen, List.length_take, h]
  omega

/-- Claim C14.  For every string `s`, the escaper run with enough fuel returns a string
in which backslash-quote begins at exactly as many positions as `s` has quotes, in which
every quote comes right after a backslash, and whose length is that of `s` plus the
number of quotes of `s`. -/
theorem escape_count (s : List Char) (fuel : Nat) (hf : s.length < fuel) :
    ∃ out, strreplace fuel s "\"".toList "\\\"".toList = some out ∧
      count_occurrences "\\\"".toList out = s.count '"' ∧
      (∀ pre post, out = pre ++ '"' :: post → ∃ pre', pre = pre' ++ ['\\']) ∧
      out.length = s.length + s.count '"' :=
  ⟨json_escape s, strreplace_quote fuel s hf, json_escape_occurrences s,
    fun pre post h => json_escape_preceded s pre post h, json_escape_length s⟩

/-- Claim C14 at a command with two quotes, one of them already after a backslash. -/
theorem escape_count_witness :
    ∃ out, strreplace 10 "say \\\"hi\"".toList "\"".toList "\\\"".toList = some out ∧
      count_occurrences "\\\"".toList out = ("say \\\"hi\"".toList).count '"' ∧
      (∀ pre post, out = pre ++ '"' :: post → ∃ pre', pre = pre' ++ ['\\']) ∧
      out.length = ("say \\\"hi\"".toList).length + ("say \\\"hi\"".toList).count '"' :=
  escape_count "say \\\"hi\"".toList 10 (by decide)

/-- Claim C15.  For a non-empty `str`, `strreplace` run with more fuel than `src` has
characters returns, and what it leaves in `src` is the reference substitution: the
left-to-right scan that puts `rep` for each occurrence of `str` it meets and resumes
after it, never looking into an inserted `rep`.  When `str` does not occur, that is
`src` itself. -/
theorem strreplace_refines_reference (src str rep : List Char) (hstr : str ≠ []) :
    (∀ fuel, src.length < fuel →
      strreplace fuel src str rep = some (replace_left_to_right str rep 0 src)) ∧
    (¬ str <:+: src →
      replace_left_to_right str rep 0 src = src ∧
      ∀ fuel, src.length < fuel → strreplace fuel src str rep = some src) := by
  refine ⟨fun fuel hf => strreplace_eq_reference fuel src str rep hstr hf, ?_⟩
  intro hno
  have h := replace_of_strstr_none str rep src ((strstr_none_iff _ _).mpr hno)
  refine ⟨h, fun fuel hf => ?_⟩
  rw [strreplace_eq_reference fuel src str rep hstr hf, h]

/-- Claim C15 with a replacement that holds the target, and with overlapping
occurrences of the target. -/
theorem strreplace_refines_reference_witness :
    (strreplace 9 "say \"hi\"".toList "\"".toList "\\\"".toList
        = some "say \\\"hi\\\"".toList ∧
      replace_left_to_right "\"".toList "\\\"".toList 0 "say \"hi\"".toList
        = "say \\\"hi\\\"".toList) ∧
    (strreplace 6 "aaaaa".toList "aa".toList "ba".toList = some "babaa".toList) ∧
    (¬ "\"".toList <:+: "reboot".toList ∧
      strreplace 7 "reboot".toList "\"".toList "\\\"".toList = some "reboot".toList) :=
  ⟨⟨((strreplace_refines_reference "say \"hi\"".toList "\"".toList "\\\"".toList
        (by decide)).1 9 (by decide)).trans (by decide), by decide⟩,
   ((strreplace_refines_reference "aaaaa".toList "aa".toList "ba".toList
        (by decide)).1 6 (by decide)).trans (by decide),
   ⟨by decide,
    ((strreplace_refines_reference "reboot".toList "\"".toList "\\\"".toList
        (by decide)).2 (by decide)).2 7 (by decide)⟩⟩

/-- Claim C16, refuted as stated: escaping the one-character string made of a quote gives
backslash, quote; escaping that gives backslash, backslash, quote, a different string. -/
theorem escape_not_idempotent :
    strreplace 2 "\"".toList "\"".toList "\\\"".toList = some "\\\"".toList ∧
    strreplace 3 "\\\"".toList "\"".toList "\\\"".toList = some "\\\\\"".toList ∧
    "\\\\\"".toList ≠ "\\\"".toList := by
  refine ⟨by decide, by decide, by decide⟩

/-- Claim C16, as amended.  Escaping `s` and escaping the result again both return; the
second result equals the first exactly when `s` holds no quote, and in general its
length is that of `s` plus twice the number of quotes of `s`: every quote is escaped
again. -/
theorem escape_twice (s : List Char) :
    ∃ e₁ e₂, strreplace (s.length + 1) s "\"".toList "\\\"".toList = some e₁ ∧
      strreplace (e₁.length + 1) e₁ "\"".toList "\\\"".toList = some e₂ ∧
      (e₂ = e₁ ↔ '"' ∉ s) ∧
      e₂.length = s.length + 2 * s.count '"' := by
  refine ⟨json_escape s, json_escape (json_escape s),
    strreplace_quote _ s (Nat.lt_succ_self _),
    strreplace_quote _ (json_escape s) (Nat.lt_succ_self _), ?_, ?_⟩
  · constructor
    · intro h
      have hl := congrArg List.length h
      rw [json_escape_length, json_escape_count_quote, json_escape_length] at hl
      exact List.count_eq_zero.mp (by omega)
    · intro h
      rw [json_escape_of_no_quote s h, json_escape_of_no_quote s h]
  · rw [json_escape_length, json_escape_count_quote, json_escape_length]
    omega

/-- Claim C17.  Whatever the request line, a run that takes the redirect consists of the
lock and unlock of the station address and the three writes of the 302 response: no
branch of the route chain runs, no collaborator is called, the JSON lock is not asked
for.  And when `Host: ` does not occur after the request line the redirect is not
taken: the run is that of the branch the route chain selects. -/
theorem redirect_is_terminal (fuel : Nat) (cfg : Config) (env : Env)
    (buf line rest : List Char)
    (hline : strtok_r buf new_line = some (line, rest)) :
    (is_redirect cfg env rest = true →
      http_server_netconn_serve fuel cfg env buf =
        some [.lock_sta_ip_string, .unlock_sta_ip_string,
              .netconn_write http_redirect_hdr_start,
              .netconn_write cfg.DEFAULT_AP_IP,
              .netconn_write http_redirect_hdr_end]) ∧
    (¬ "Host: ".toList <:+: rest →
      is_redirect cfg env rest = false ∧
      http_server_netconn_serve fuel cfg env buf =
        (handler fuel cfg env rest (route line)).map
          (fun t => .lock_sta_ip_string :: .unlock_sta_ip_string :: t)) := by
  refine ⟨fun hr => serve_redirect fuel cfg env buf line rest hline hr, ?_⟩
  intro hno
  have hh := get_header_of_not_strstr rest "Host: ".toList ((strstr_none_iff _ _).mpr hno)
  have hr : is_redirect cfg env rest = false := by
    rw [is_redirect_eq cfg env rest _ _ hh]
    simp
  exact ⟨hr, serve_direct fuel cfg env buf line rest hline hr⟩

/-- Claim C17 at a POST /connect.json request for a foreign host, which is redirected
without any connection being asked for, and at a request without Host header. -/
theorem redirect_is_terminal_witness :
    http_server_netconn_serve 0 example_cfg example_env
        ("POST /connect.json HTTP/1.1\r\nHost: example.com\r\n" ++
          "X-Custom-ssid: net\r\nX-Custom-pwd: secret\r\n\r\n").toList =
      some [.lock_sta_ip_string, .unlock_sta_ip_string,
            .netconn_write http_redirect_hdr_start,
            .netconn_write example_cfg.DEFAULT_AP_IP,
            .netconn_write http_redirect_hdr_end] ∧
    is_redirect example_cfg example_env "X-Custom-ssid: net\r\n\r\n".toList = false :=
  ⟨(redirect_is_terminal 0 example_cfg example_env
      ("POST /connect.json HTTP/1.1\r\nHost: example.com\r\n" ++
        "X-Custom-ssid: net\r\nX-Custom-pwd: secret\r\n\r\n").toList
      "POST /connect.json HTTP/1.1\r".toList
      "Host: example.com\r\nX-Custom-ssid: net\r\nX-Custom-pwd: secret\r\n\r\n".toList
      (by decide)).1 (by decide),
   ((redirect_is_terminal 0 example_cfg example_env
      "POST /connect.json HTTP/1.1\r\nX-Custom-ssid: net\r\n\r\n".toList
      "POST /connect.json HTTP/1.1\r".toList "X-Custom-ssid: net\r\n\r\n".toList
      (by decide)).2 (by decide)).1⟩

/-- Claim C18, refuted as stated: on GET /ap.json with the JSON lock obtained, the two
writes of the response happen after the lock is taken and before it is released. -/
theorem ap_json_writes_under_lock :
    http_server_netconn_serve 0 example_cfg example_env
        "GET /ap.json HTTP/1.1\r\nHost: 10.10.0.1\r\n\r\n".toList
      = some ([.lock_sta_ip_string, .unlock_sta_ip_string] ++ [.lock_json_buffer true] ++
          [.netconn_write http_ok_json_no_cache_hdr,
           .netconn_write example_env.ap_list_json] ++
          [.unlock_json_buffer] ++ [.scan_async]) ∧
    writes_under_lock false
      [.lock_sta_ip_string, .unlock_sta_ip_string, .lock_json_buffer true,
       .netconn_write http_ok_json_no_cache_hdr, .netconn_write example_env.ap_list_json,
       .unlock_json_buffer, .scan_async] = 2 := by
  refine ⟨by decide, by decide⟩

/-- Claim C18, as amended.  On a run that is not redirected: on GET /ap.json with the
lock obtained, and on GET /status.json with the lock obtained and a snapshot, the run is
lock, write of the 200 header, write of the snapshot, unlock, so both writes happen
under the lock; when the lock is not obtained on GET /ap.json, GET /status.json or POST
/config.json, the run returns and its one write, the 503 header, is not under the
lock. -/
theorem snapshot_written_under_lock (fuel : Nat) (cfg : Config) (env : Env)
    (buf line rest : List Char)
    (hline : strtok_r buf new_line = some (line, rest))
    (hdirect : is_redirect cfg env rest = false) :
    (route line = .ap_json → env.lock_json_buffer = true →
      http_server_netconn_serve fuel cfg env buf =
        some [.lock_sta_ip_string, .unlock_sta_ip_string, .lock_json_buffer true,
              .netconn_write http_ok_json_no_cache_hdr, .netconn_write env.ap_list_json,
              .unlock_json_buffer, .scan_async]) ∧
    (∀ J, route line = .status_json → env.lock_json_buffer = true →
      env.ip_info_json = some J →
      http_server_netconn_serve fuel cfg env buf =
        some [.lock_sta_ip_string, .unlock_sta_ip_string, .lock_json_buffer true,
              .netconn_write http_ok_json_no_cache_hdr, .netconn_write J,
              .unlock_json_buffer]) ∧
    (route line = .ap_json ∨ route line = .status_json ∨ route line = .post_config_json →
      env.lock_json_buffer = false →
      ∃ tr, http_server_netconn_serve fuel cfg env buf = some tr ∧
        writes tr = [http_503_hdr] ∧ writes_under_lock false tr = 0) := by
  refine ⟨?_, ?_, ?_⟩
  · intro hroute hl
    refine serve_of_handler fuel cfg env buf line rest _ hline hdirect ?_
    rw [hroute]; simp [handler, hl]
  · intro J hroute hl hi
    refine serve_of_handler fuel cfg env buf line rest _ hline hdirect ?_
    rw [hroute]; simp [handler, hl, hi]
  · intro hroute hl
    rcases hroute with hroute | hroute | hroute
    · refine ⟨_, serve_of_handler fuel cfg env buf line rest
        [.lock_json_buffer false, .netconn_write http_503_hdr, .scan_async]
        hline hdirect ?_, rfl, rfl⟩
      rw [hroute]; simp [handler, hl]
    · refine ⟨_, serve_of_handler fuel cfg env buf line rest
        [.lock_json_buffer false, .netconn_write http_503_hdr] hline hdirect ?_, rfl, rfl⟩
      rw [hroute]; simp [handler, hl]
    · refine ⟨_, serve_of_handler fuel cfg env buf line rest
        [.lock_json_buffer false, .netconn_write http_503_hdr] hline hdirect ?_, rfl, rfl⟩
      rw [hroute]; simp [handler, hl]

/-- Claim C18 as amended, at a GET /status.json request with a snapshot and at one with
the lock busy. -/
theorem snapshot_written_under_lock_witness :
    http_server_netconn_serve 0 example_cfg
        { example_env with ip_info_json := some "\x7b\"ip\":\"192.168.1.5\"\x7d".toList }
        "GET /status.json HTTP/1.1\r\n\r\n".toList =
      some [.lock_sta_ip_string, .unlock_sta_ip_string, .lock_json_buffer true,
            .netconn_write http_ok_json_no_cache_hdr,
            .netconn_write "\x7b\"ip\":\"192.168.1.5\"\x7d".toList,
            .unlock_json_buffer] ∧
    ∃ tr, http_server_netconn_serve 0 example_cfg
        { example_env with lock_json_buffer := false }
        "GET /status.json HTTP/1.1\r\n\r\n".toList = some tr ∧
      writes tr = [http_503_hdr] ∧ writes_under_lock false tr = 0 :=
  ⟨(snapshot_written_under_lock 0 example_cfg
      { example_env with ip_info_json := some "\x7b\"ip\":\"192.168.1.5\"\x7d".toList }
      "GET /status.json HTTP/1.1\r\n\r\n".toList "GET /status.json HTTP/1.1\r".toList
      "\r\n".toList (by decide) (by decide)).2.1 _ (by decide) rfl rfl,
   (snapshot_written_under_lock 0 example_cfg { example_env with lock_json_buffer := false }
      "GET /status.json HTTP/1.1\r\n\r\n".toList "GET /status.json HTTP/1.1\r".toList
      "\r\n".toList (by decide) (by decide)).2.2 (Or.inr (Or.inl (by decide))) rfl⟩

/-- Claim C19, refuted as stated: POST /connect.json is an entry of the table, and a
well-formed POST /connect.json request without credentials is answered by the 400
header. -/
theorem connect_in_table_gets_400 :
    table_lookup "POST".toList "/connect.json".toList = .post_connect_json ∧
    Route.post_connect_json ∈ Route.table ∧
    strtok_r "POST /connect.json HTTP/1.1\r\n\r\n".toList new_line
      = some ("POST".toList ++ " ".toList ++ "/connect.json".toList ++ " ".toList ++
          "HTTP/1.1".toList ++ ['\r'], "\r\n".toList) ∧
    http_server_netconn_serve 0 example_cfg example_env
        "POST /connect.json HTTP/1.1\r\n\r\n".toList
      = some [.lock_sta_ip_string, .unlock_sta_ip_string, .netconn_write http_400_hdr] := by
  refine ⟨by decide, by decide, by decide, by decide⟩

/-- Claim C19, as amended.  On a run that is not redirected whose request line is a method
among GET, POST and DELETE, a space, a path without space, a space and a version without
space, with or without a final carriage return: the branch that runs is the entry of the
route table for the method and the path; the final `else`, which writes the 400 header
alone, is taken exactly when no entry of the table has that method and path; for an
entry other than POST /connect.json the answer does not begin with the 400 header.  The
entries of GET /status.json, GET /ap.json, GET /config.json and POST /config.json are
their own branches. -/
theorem dispatch_well_formed (fuel : Nat) (cfg : Config) (env : Env)
    (buf rest M P V cr : List Char)
    (hM : M ∈ ["GET".toList, "POST".toList, "DELETE".toList])
    (hP : ' ' ∉ P) (hV : ' ' ∉ V) (hcr : cr = [] ∨ cr = ['\r'])
    (hline : strtok_r buf new_line =
      some (M ++ " ".toList ++ P ++ " ".toList ++ V ++ cr, rest))
    (hdirect : is_redirect cfg env rest = false) :
    route (M ++ " ".toList ++ P ++ " ".toList ++ V ++ cr) = table_lookup M P ∧
    http_server_netconn_serve fuel cfg env buf =
      (handler fuel cfg env rest (table_lookup M P)).map
        (fun t => .lock_sta_ip_string :: .unlock_sta_ip_string :: t) ∧
    (table_lookup M P = .bad_request ↔
      ∀ r ∈ Route.table, r.pattern ≠ M ++ " ".toList ++ P ++ " ".toList) ∧
    (table_lookup M P = .bad_request →
      http_server_netconn_serve fuel cfg env buf =
        some [.lock_sta_ip_string, .unlock_sta_ip_string, .netconn_write http_400_hdr]) ∧
    (table_lookup M P ≠ .bad_request → table_lookup M P ≠ .post_connect_json →
      ∀ tr, http_server_netconn_serve fuel cfg env buf = some tr →
        (writes tr).head? ≠ some http_400_hdr) ∧
    table_lookup "GET".toList "/status.json".toList = .status_json ∧
    table_lookup "GET".toList "/ap.json".toList = .ap_json ∧
    table_lookup "GET".toList "/config.json".toList = .get_config_json ∧
    table_lookup "POST".toList "/config.json".toList = .post_config_json := by
  have hVcr : ' ' ∉ V ++ cr := by
    rcases hcr with h | h <;> subst h <;> simp [hV]
  have hroute : route (M ++ " ".toList ++ P ++ " ".toList ++ V ++ cr) = table_lookup M P := by
    have := route_eq_table_lookup M P (V ++ cr) hM hP hVcr
    rw [← this]
    congr 1
    simp
  have hs := serve_direct fuel cfg env buf _ rest hline hdirect
  rw [hroute] at hs
  refine ⟨hroute, hs, table_lookup_bad_iff M P, ?_, ?_, by decide, by decide, by decide,
    by decide⟩
  · intro hb
    rw [hs, hb]; rfl
  · intro h1 h2 tr htr
    rw [hs] at htr
    cases ht : handler fuel cfg env rest (table_lookup M P) with
    | none => rw [ht] at htr; cases htr
    | some t =>
      rw [ht] at htr
      simp only [Option.map_some', Option.some.injEq] at htr
      subst htr
      rw [writes_direct]
      exact handler_head_not_400 fuel cfg env rest _ t ht h1 h2

/-- Claim C19 as amended, at a GET /status.json request and at a DELETE of an unknown
path. -/
theorem dispatch_well_formed_witness :
    route ("GET".toList ++ " ".toList ++ "/status.json".toList ++ " ".toList ++
      "HTTP/1.1".toList ++ ['\r']) = .status_json ∧
    http_server_netconn_serve 0 example_cfg example_env
        "DELETE /status.json HTTP/1.0\n\n".toList
      = some [.lock_sta_ip_string, .unlock_sta_ip_string, .netconn_write http_400_hdr] :=
  ⟨((dispatch_well_formed 0 example_cfg example_env
      "GET /status.json HTTP/1.1\r\n\r\n".toList "\r\n".toList
      "GET".toList "/status.json".toList "HTTP/1.1".toList ['\r']
      (by decide) (by decide) (by decide) (Or.inr rfl) (by decide) (by decide)).1).trans
      (by decide),
   (dispatch_well_formed 0 example_cfg example_env
      "DELETE /status.json HTTP/1.0\n\n".toList "\n".toList
      "DELETE".toList "/status.json".toList "HTTP/1.0".toList []
      (by decide) (by decide) (by decide) (Or.inl rfl) (by decide) (by decide)).2.2.2.1
      (by decide)⟩

/-- Claim C20 on a GET /status.json request with the lock obtained and no snapshot, and
on a POST /config.json request with the lock obtained: both runs end with the JSON lock
still held, no unlock following the lock.  The GET /ap.json run on the same collaborators
releases it, and the station-address lock is released in all three. -/
theorem json_lock_left_held :
    http_server_netconn_serve 0 example_cfg example_env
        "GET /status.json HTTP/1.1\r\nHost: 10.10.0.1\r\n\r\n".toList
      = some [.lock_sta_ip_string, .unlock_sta_ip_string, .lock_json_buffer true,
              .netconn_write http_503_hdr] ∧
    json_lock_held false
      [.lock_sta_ip_string, .unlock_sta_ip_string, .lock_json_buffer true,
       .netconn_write http_503_hdr] = true ∧
    http_server_netconn_serve 2 example_cfg example_env
        "POST /config.json HTTP/1.1\r\nX-Custom-autoexec1: reboot\r\n\r\n".toList
      = some [.lock_sta_ip_string, .unlock_sta_ip_string, .lock_json_buffer true,
              .save_autoexec_config "reboot\r\n\r\n".toList "autoexec1".toList 6,
              .netconn_write http_ok_json_no_cache_hdr] ∧
    json_lock_held false
      [.lock_sta_ip_string, .unlock_sta_ip_string, .lock_json_buffer true,
       .save_autoexec_config "reboot\r\n\r\n".toList "autoexec1".toList 6,
       .netconn_write http_ok_json_no_cache_hdr] = true ∧
    (http_server_netconn_serve 0 example_cfg example_env
        "GET /ap.json HTTP/1.1\r\nHost: 10.10.0.1\r\n\r\n".toList).map (json_lock_held false)
      = some false ∧
    (http_server_netconn_serve 0 example_cfg example_env
        "GET /status.json HTTP/1.1\r\nHost: 10.10.0.1\r\n\r\n".toList).map
        (sta_lock_held false) = some false := by
  refine ⟨by decide, by decide, by decide, by decide, by decide, by decide⟩

end HttpServer
